import Mathlib

/-!
Scheduling core of backend-padel-go.

A shallow embedding of the booking and court services
(`internal/services/booking.go`, `internal/services/court.go`) together with
the parts of Go's `time` package and of the SQL store they rely on.

Modelling conventions.

* An instant is a number of whole minutes counted from 0000-01-01 00:00 UTC.
  `time.Parse` with the layout `15:04` yields an instant of that first day;
  when it fails the services ignore the error and go on with the zero
  `time.Time`, which is 0001-01-01 00:00 UTC and so lies 366 days later.
* A `DATE` column keeps a calendar day.  The connection is opened with
  `loc=Local` (`database.Connect`), so the driver renders every `time.Time`
  it sends in the local zone of the server and the column takes the local
  day of the instant.  The zone is the field `loc` of the store, a fixed
  offset from UTC in minutes; daylight saving time is left out.
* A table is the list of its rows in ascending primary-key order; `First`
  is the first matching row, `Find` is the list of matching rows and `Count`
  its length.  GORM adds `deleted_at IS NULL` to every query on a model that
  has a `DeletedAt` column; the column is kept as the flag `Deleted` on the
  models whose rows some service deletes.
* Text columns are compared in SQL character by character (`sqlLt`).
* A `float64` is the rational number it stands for.  `float64` arithmetic
  rounds every result to the nearest `float64`, ties to even (`float64`);
  the exponent range, which the amounts of this program never reach, is left
  out, and a division by zero, which gives NaN or an infinity in Go, has no
  rational value (`floatDiv`).  A `decimal(10,2)` column keeps a `float64`
  rounded to two decimals (`decimalColumn`); a value of such a column that
  is read into a `float64` and only passed on is kept as the decimal, which
  its ten digits determine.
* Store accesses do not fail, except an insert or update that a primary key
  or a unique index declared in the models refuses, and an insert of a day
  before 0000-01-01, for which the driver has no text.
-/

namespace PadelGo

/-! ## Go's `time` package -/

/-- The zero `time.Time`, 0001-01-01 00:00 UTC, in minutes since 0000-01-01
00:00 UTC (year 0 has 366 days). -/
def zeroTime : Nat := 366 * 24 * 60

/-- Decimal digit test of `time/format.go`. -/
def isDigit (c : Char) : Bool := decide (48 ≤ c.toNat) && decide (c.toNat ≤ 57)

/-- Value of a decimal digit, `int(c - '0')`. -/
def digitVal (c : Char) : Nat := c.toNat - 48

/-- The function `getnum` of `time/format.go`: a number of one or two digits at the head of
the text, exactly two when `fixed`. -/
def getnum (s : List Char) (fixed : Bool) : Option (Nat × List Char) :=
  match s with
  | [] => none
  | c0 :: rest =>
    if !isDigit c0 then none
    else
      match rest with
      | [] => if fixed then none else some (digitVal c0, rest)
      | c1 :: rest1 =>
        if !isDigit c1 then (if fixed then none else some (digitVal c0, rest))
        else some (digitVal c0 * 10 + digitVal c1, rest1)

/-- The successful results of `time.Parse("15:04", value)`: an hour of one or
two digits below 24, a colon, a minute of exactly two digits below 60, and
nothing after it. -/
def parseClock (value : String) : Option Nat :=
  match getnum value.data false with
  | none => none
  | some (hour, afterHour) =>
    if 24 ≤ hour then none
    else
      match afterHour with
      | [] => none
      | sep :: afterSep =>
        if sep ≠ ':' then none
        else
          match getnum afterSep true with
          | none => none
          | some (min, afterMin) =>
            if 60 ≤ min then none
            else if afterMin.isEmpty then some (hour * 60 + min)
            else none

/-- The value bound by `t, _ := time.Parse("15:04", value)`: the parsed
instant, or the zero `time.Time` when parsing fails. -/
def parseClockOrZero (value : String) : Nat :=
  (parseClock value).getD zeroTime

/-- The character of a decimal digit. -/
def digitChar (n : Nat) : Char := Char.ofNat (48 + n % 10)

/-- The two-digit rendering `appendInt(b, n, 2)` of a number below 100. -/
def twoDigits (n : Nat) : List Char := [digitChar (n / 10), digitChar n]

/-- The text of `t.Format("15:04")`. -/
def formatClock (t : Nat) : String :=
  String.mk (twoDigits (t / 60 % 24) ++ ':' :: twoDigits (t % 60))

/-- A calendar date. -/
structure Date where
  year : Nat
  month : Nat
  day : Nat
  deriving DecidableEq, Repr

/-- Leap years of the proleptic Gregorian calendar. -/
def isLeap (year : Nat) : Bool :=
  year % 4 == 0 && (year % 100 != 0 || year % 400 == 0)

/-- The function `daysIn` of `time/time.go`. -/
def daysIn (month year : Nat) : Nat :=
  if month == 2 then (if isLeap year then 29 else 28)
  else if month == 4 || month == 6 || month == 9 || month == 11 then 30
  else 31

/-- The successful results of `time.Parse("2006-01-02", value)`: four digits,
a dash, a two-digit month in 1..12, a dash, a two-digit day that exists in
that month, and nothing after it. -/
def parseDate (value : String) : Option Date :=
  match value.data with
  | y0 :: y1 :: y2 :: y3 :: afterYear =>
    if !(isDigit y0 && isDigit y1 && isDigit y2 && isDigit y3) then none
    else
      let year := ((digitVal y0 * 10 + digitVal y1) * 10 + digitVal y2) * 10 + digitVal y3
      match afterYear with
      | [] => none
      | sep1 :: afterSep1 =>
        if sep1 ≠ '-' then none
        else
          match getnum afterSep1 true with
          | none => none
          | some (month, afterMonth) =>
            if month = 0 ∨ 12 < month then none
            else
              match afterMonth with
              | [] => none
              | sep2 :: afterSep2 =>
                if sep2 ≠ '-' then none
                else
                  match getnum afterSep2 true with
                  | none => none
                  | some (day, afterDay) =>
                    if !afterDay.isEmpty then none
                    else if day < 1 ∨ daysIn month year < day then none
                    else some { year := year, month := month, day := day }
  | _ => none

/-- Days of the year before the first of a month, in a common year. -/
def daysBeforeMonth (month : Nat) : Nat :=
  match month with
  | 1 => 0
  | 2 => 31
  | 3 => 59
  | 4 => 90
  | 5 => 120
  | 6 => 151
  | 7 => 181
  | 8 => 212
  | 9 => 243
  | 10 => 273
  | 11 => 304
  | _ => 334

/-- Days from 0000-01-01 to a date. -/
def dayNumber (d : Date) : Nat :=
  365 * d.year + (d.year + 3) / 4 - (d.year + 99) / 100 + (d.year + 399) / 400
    + daysBeforeMonth d.month + (if 2 < d.month && isLeap d.year then 1 else 0)
    + (d.day - 1)

/-- The value of `int(date.Weekday())`: 0 is Sunday; 0000-01-01 was a Saturday. -/
def weekday (d : Date) : Nat := (dayNumber d + 6) % 7

/-- The day before a date; the calendar of the model has none before
0000-01-01. -/
def Date.previous (d : Date) : Option Date :=
  if 1 < d.day then some { d with day := d.day - 1 }
  else if 1 < d.month then
    some { year := d.year, month := d.month - 1, day := daysIn (d.month - 1) d.year }
  else if 0 < d.year then some { year := d.year - 1, month := 12, day := 31 }
  else none

/-- The day a `DATE` column takes from the instant 00:00 UTC of `date`, the
value of `time.Parse("2006-01-02", ...)`, when it is sent as a `time.Time`
through a connection whose zone lies `loc` minutes east of UTC: the driver
sends the text of the instant in that zone, which falls on the day before
when the zone is behind UTC, and the column keeps the day of the text. -/
def dateColumn (loc : Int) (date : Date) : Option Date :=
  if loc < 0 then date.previous else some date

/-! ## `float64` arithmetic and `decimal(10,2)` columns -/

/-- The nearest integer, a tie going to the even one. -/
def roundEven (x : Rat) : Int :=
  let f := ⌊x⌋
  if x - f < 1 / 2 then f
  else if 1 / 2 < x - f then f + 1
  else if f % 2 = 0 then f
  else f + 1

/-- The `float64` nearest to a rational number: 53 significant binary
digits, round to nearest, ties to even (IEEE 754 binary64, the rounding of
every `float64` operation of Go). -/
def float64 (x : Rat) : Rat :=
  if x = 0 then 0
  else
    let ulp : Rat := 2 ^ (Int.log 2 |x| - 52)
    roundEven (x / ulp) * ulp

/-- The nearest integer, a tie going away from zero. -/
def roundHalfAway (x : Rat) : Int :=
  if 0 ≤ x then ⌊x + 1 / 2⌋ else -⌊-x + 1 / 2⌋

/-- The decimal of `digits` significant digits nearest to `x`. -/
def toDigits (x : Rat) (digits : Nat) : Rat :=
  if x = 0 then 0
  else
    let unit : Rat := 10 ^ (Int.log 10 |x| + 1 - digits)
    roundHalfAway (x / unit) * unit

/-- The decimal a `float64` is turned into when the database converts it: the
shortest one, of at most 17 digits, that reads back as the same `float64`
(0.1 for the `float64` nearest to 0.1). -/
def shortestDecimal (x : Rat) : Rat :=
  match ((List.range 17).map (fun n => toDigits x (n + 1))).find? (fun d => float64 d == x) with
  | some d => d
  | none => x

/-- The value a `decimal(10,2)` column keeps of a `float64` written to it:
its decimal (`shortestDecimal`) rounded to two places, half away from zero,
which is how MySQL rounds on insert into an exact-value column. -/
def decimalColumn (x : Rat) : Rat :=
  (roundHalfAway (shortestDecimal x * 100) : Rat) / 100

/-! ## Models (`internal/models`) -/

deriving instance DecidableEq for Except

/-- The model `models.TimeSlot`. -/
structure TimeSlot where
  StartTime : String
  EndTime : String
  Available : Bool
  Price : Rat
  deriving DecidableEq, Repr

/-- The model `models.Booking`, without its timestamps and preloaded relations.  No
service deletes a booking, so `deleted_at` is NULL on every row and the
column is left out. -/
structure Booking where
  ID : Nat
  CourtID : Nat
  UserID : Nat
  Date : Date
  StartTime : String
  EndTime : String
  Status : String
  TotalPrice : Rat
  Notes : String
  deriving DecidableEq, Repr

/-- The model `models.CreateBookingRequest`. -/
structure CreateBookingRequest where
  CourtID : Nat
  Date : String
  StartTime : String
  EndTime : String
  Notes : String
  deriving DecidableEq, Repr

/-- The model `models.Court`, reduced to the columns the scheduling core reads. -/
structure Court where
  ID : Nat
  Name : String
  PricePerHour : Rat
  OwnerID : Nat
  IsActive : Bool
  Deleted : Bool
  deriving DecidableEq, Repr

/-- The model `models.BusinessHour`. -/
structure BusinessHour where
  ID : Nat
  CourtID : Nat
  DayOfWeek : Nat
  OpenTime : String
  CloseTime : String
  deriving DecidableEq, Repr

/-- The model `models.SpecialHour`. -/
structure SpecialHour where
  ID : Nat
  CourtID : Nat
  Date : Date
  OpenTime : Option String
  CloseTime : Option String
  IsClosed : Bool
  Reason : String
  deriving DecidableEq, Repr

/-- The model `models.Payment`. -/
structure Payment where
  ID : String
  BookingID : Nat
  UserID : Nat
  Amount : Rat
  Currency : String
  Status : String
  PreferenceID : String
  MercadoPagoID : String
  PaymentMethod : String
  PayerEmail : String
  Deleted : Bool
  deriving DecidableEq, Repr

/-- The database handle the services share: the tables, and the zone of the
connection, `loc=Local` in the DSN of `database.Connect`, as the offset of
the server's local time from UTC in minutes (negative west of UTC). -/
structure Store where
  courts : List Court
  businessHours : List BusinessHour
  specialHours : List SpecialHour
  bookings : List Booking
  payments : List Payment
  loc : Int
  deriving DecidableEq, Repr

/-! ## Court service (`internal/services/court.go`) -/

namespace CourtService

/-- The method `CourtService.GetCourtByID`: the court row with this primary key. -/
def GetCourtByID (s : Store) (id : Nat) : Except String Court :=
  match s.courts.find? (fun c => c.ID == id && !c.Deleted) with
  | none => .error "court not found"
  | some court => .ok court

/-- The loop of `generateTimeSlots`; `fuel` bounds the number of iterations. -/
def generateLoop (pricePerHour : Rat) (closeT : Nat) : Nat → Nat → List TimeSlot
  | 0, _ => []
  | fuel + 1, current =>
    if current < closeT then
      let next := current + 60
      if closeT < next then []
      else
        { StartTime := formatClock current
          EndTime := formatClock next
          Available := true
          Price := pricePerHour } :: generateLoop pricePerHour closeT fuel next
    else []

/-- The method `CourtService.generateTimeSlots`.  Every iteration moves `current` one
hour closer to the closing time, so the distance between the two in minutes
is fuel enough. -/
def generateTimeSlots (openTime closeTime : String) (pricePerHour : Rat) : List TimeSlot :=
  let openT := parseClockOrZero openTime
  let closeT := parseClockOrZero closeTime
  generateLoop pricePerHour closeT (closeT - openT) openT

/-- The method `CourtService.isTimeSlotOverlapping`. -/
def isTimeSlotOverlapping (slot : TimeSlot) (booking : Booking) : Bool :=
  let slotStart := parseClockOrZero slot.StartTime
  let slotEnd := parseClockOrZero slot.EndTime
  let bookingStart := parseClockOrZero booking.StartTime
  let bookingEnd := parseClockOrZero booking.EndTime
  decide (slotStart < bookingEnd) && decide (bookingStart < slotEnd)

/-- The method `CourtService.filterAvailableSlots`: the slots that overlap no booking. -/
def filterAvailableSlots (slots : List TimeSlot) (bookings : List Booking) : List TimeSlot :=
  slots.filter (fun slot => !bookings.any (fun booking => isTimeSlotOverlapping slot booking))

/-- The rows of `Where("court_id = ? AND date = ? AND status = ?", courtID,
date, "confirmed").Find(&bookings)`. -/
def confirmedBookings (s : Store) (courtID : Nat) (date : Date) : List Booking :=
  s.bookings.filter (fun b =>
    b.CourtID == courtID && b.Date == date && b.Status == "confirmed")

/-- The method `CourtService.GetAvailability`. -/
def GetAvailability (s : Store) (courtID : Nat) (date : Date) : Except String (List TimeSlot) :=
  match GetCourtByID s courtID with
  | .error err => .error err
  | .ok court =>
    let dayOfWeek := weekday date
    match s.businessHours.find? (fun bh => bh.CourtID == courtID && bh.DayOfWeek == dayOfWeek) with
    | none => .error "no business hours for this day"
    | some businessHour =>
      let bookings := confirmedBookings s courtID date
      let slots := generateTimeSlots businessHour.OpenTime businessHour.CloseTime court.PricePerHour
      .ok (filterAvailableSlots slots bookings)

end CourtService

/-! ## SQL text comparison -/

/-- SQL `<` on two texts: the first position where they differ decides, and
a proper beginning of a text is smaller than the text. -/
def sqlLt : List Char → List Char → Bool
  | [], [] => false
  | [], _ :: _ => true
  | _ :: _, [] => false
  | a :: as, b :: bs =>
    if a.toNat < b.toNat then true
    else if b.toNat < a.toNat then false
    else sqlLt as bs

/-- Column `<` value. -/
def textLt (a b : String) : Bool := sqlLt a.data b.data

/-- Column `>` value. -/
def textGt (a b : String) : Bool := sqlLt b.data a.data

/-- Column `>=` value. -/
def textGe (a b : String) : Bool := !sqlLt a.data b.data

/-- Column `<=` value. -/
def textLe (a b : String) : Bool := !sqlLt b.data a.data

/-! ## Booking service (`internal/services/booking.go`) -/

namespace BookingService

/-- The second `Where` of `checkAvailability` on one row:
`(start_time < endTime AND end_time > startTime) OR
 (start_time < endTime AND end_time > startTime) OR
 (start_time >= startTime AND end_time <= endTime)`. -/
def conflictCondition (b : Booking) (startTime endTime : String) : Bool :=
  (textLt b.StartTime endTime && textGt b.EndTime startTime)
    || (textLt b.StartTime endTime && textGt b.EndTime startTime)
    || (textGe b.StartTime startTime && textLe b.EndTime endTime)

/-- The rows counted by `checkAvailability`. -/
def conflictingBookings (s : Store) (courtID : Nat) (date : Date)
    (startTime endTime : String) : List Booking :=
  s.bookings.filter (fun b =>
    (b.CourtID == courtID && b.Date == date && b.Status == "confirmed")
      && conflictCondition b startTime endTime)

/-- The method `BookingService.checkAvailability`. -/
def checkAvailability (s : Store) (courtID : Nat) (date : Date)
    (startTime endTime : String) : Bool :=
  let count := (conflictingBookings s courtID date startTime endTime).length
  count == 0

/-- The method `BookingService.calculateHours`, `end.Sub(start).Hours()`.
`Duration.Hours` splits the duration `d` into `hour := d / Hour` and
`nsec := d % Hour`, both truncated towards zero, and returns
`float64(hour) + float64(nsec)/(60*60*1e9)`.  The duration is a whole number
of minutes here, the two conversions are exact, and the quotient is that of
the remaining minutes by 60. -/
def calculateHours (startTime endTime : String) : Rat :=
  let start := parseClockOrZero startTime
  let finish := parseClockOrZero endTime
  let d : Int := (finish : Int) - (start : Int)
  let hour : Int := d.tdiv 60
  let minutes : Int := d.tmod 60
  float64 ((hour : Rat) + float64 ((minutes : Rat) / 60))

/-- The primary key the database gives to the next booking row. -/
def nextBookingID (s : Store) : Nat :=
  (s.bookings.foldl (fun m b => max m b.ID) 0) + 1

/-- The query `Where("id = ? AND is_active = ?", id, true).First(&court)`. -/
def findActiveCourt (s : Store) (id : Nat) : Option Court :=
  s.courts.find? (fun c => c.ID == id && c.IsActive && !c.Deleted)

/-- The row `CreateBooking` inserts: the struct `booking` as the table keeps
it.  `date` is the day the `date` column takes.  The price of the court is
read from its `decimal(10,2)` column into a `float64`, `totalPrice` is the
`float64` product, and the `decimal(10,2)` column `total_price` keeps it
rounded to two decimals. -/
def newBooking (s : Store) (userID : Nat) (req : CreateBookingRequest)
    (court : Court) (date : Date) : Booking :=
  let hours := calculateHours req.StartTime req.EndTime
  let totalPrice := float64 (hours * float64 court.PricePerHour)
  { ID := nextBookingID s
    CourtID := req.CourtID
    UserID := userID
    Date := date
    StartTime := req.StartTime
    EndTime := req.EndTime
    Status := "pending"
    TotalPrice := decimalColumn totalPrice
    Notes := req.Notes }

/-- The method `BookingService.CreateBooking`: the answer (the stored row on success,
which the method reads back and whose columns make up the response) and the
store after the call.  `checkAvailability` is asked about the text of the
requested date, while the insert sends the instant 00:00 UTC of that date
through the connection (`dateColumn`). -/
def CreateBooking (s : Store) (userID : Nat) (req : CreateBookingRequest) :
    Except String Booking × Store :=
  match findActiveCourt s req.CourtID with
  | none => (.error "court not found", s)
  | some court =>
    match parseDate req.Date with
    | none => (.error "invalid date format", s)
    | some date =>
      let available := checkAvailability s req.CourtID date req.StartTime req.EndTime
      if !available then (.error "time slot not available", s)
      else
        match dateColumn s.loc date with
        | none => (.error "failed to create booking", s)
        | some day =>
          let booking := newBooking s userID req court day
          (.ok booking, { s with bookings := s.bookings ++ [booking] })

/-! ### Calls of `CreateBooking` running side by side

`CreateBooking` opens no transaction: the court lookup, the count of
`checkAvailability` and the insert are three separate statements, and the
statements of other calls may run between them. -/

/-- How far one call of `CreateBooking` has come. -/
inductive Call where
  | start (userID : Nat) (req : CreateBookingRequest)
  | haveCourt (userID : Nat) (req : CreateBookingRequest) (court : Court) (date : Date)
  | checked (userID : Nat) (req : CreateBookingRequest) (court : Court) (date : Date)
  | done (result : Except String Booking)
  deriving DecidableEq, Repr

/-- The next statement of a call, run on the store as it is then. -/
def Call.step (s : Store) : Call → Call × Store
  | .start userID req =>
    match findActiveCourt s req.CourtID with
    | none => (.done (.error "court not found"), s)
    | some court =>
      match parseDate req.Date with
      | none => (.done (.error "invalid date format"), s)
      | some date => (.haveCourt userID req court date, s)
  | .haveCourt userID req court date =>
    if !checkAvailability s req.CourtID date req.StartTime req.EndTime then
      (.done (.error "time slot not available"), s)
    else (.checked userID req court date, s)
  | .checked userID req court date =>
    match dateColumn s.loc date with
    | none => (.done (.error "failed to create booking"), s)
    | some day =>
      let booking := newBooking s userID req court day
      (.done (.ok booking), { s with bookings := s.bookings ++ [booking] })
  | .done result => (.done result, s)

/-- The store and the calls in flight. -/
structure Running where
  store : Store
  calls : List Call
  deriving DecidableEq, Repr

/-- One statement of call number `i`. -/
def Running.advance (r : Running) (i : Nat) : Running :=
  match r.calls[i]? with
  | none => r
  | some c =>
    let (moved, store) := c.step r.store
    { store := store, calls := r.calls.set i moved }

/-- The statements run in the order of a schedule, which names the call
that moves at each step. -/
def Running.run (r : Running) (schedule : List Nat) : Running :=
  schedule.foldl Running.advance r

/-- Calls that have not begun. -/
def Running.begin (s : Store) (reqs : List (Nat × CreateBookingRequest)) : Running :=
  { store := s, calls := reqs.map (fun p => Call.start p.1 p.2) }

end BookingService

/-! ## Intervals and the booking invariants of the specification -/

/-- A clock text in the zero-padded form `HH:MM`: it parses, and formatting
the parsed instant gives the text back. -/
def wellFormedClock (s : String) : Bool :=
  match parseClock s with
  | none => false
  | some t => formatClock t == s

/-- Half-open overlap of the intervals of two bookings. -/
def Booking.overlaps (a b : Booking) : Bool :=
  decide (parseClockOrZero a.StartTime < parseClockOrZero b.EndTime)
    && decide (parseClockOrZero b.StartTime < parseClockOrZero a.EndTime)

/-- Status `pending` or `confirmed`. -/
def Booking.blocking (b : Booking) : Bool :=
  b.Status == "pending" || b.Status == "confirmed"

/-- No two bookings of one court and date with status pending or confirmed
overlap. -/
def Store.noDoubleBooking (s : Store) : Prop :=
  s.bookings.Pairwise (fun a b =>
    a.CourtID = b.CourtID → a.Date = b.Date → a.blocking = true → b.blocking = true →
      a.overlaps b = false)

/-- No confirmed booking overlaps another booking of its court and date
with status pending or confirmed. -/
def Store.noConfirmedOverlap (s : Store) : Prop :=
  s.bookings.Pairwise (fun a b =>
    a.CourtID = b.CourtID → a.Date = b.Date → a.blocking = true → b.blocking = true →
      a.Status = "confirmed" ∨ b.Status = "confirmed" → a.overlaps b = false)

/-- Every stored booking has zero-padded `HH:MM` times. -/
def Store.clockTimes (s : Store) : Prop :=
  ∀ b ∈ s.bookings, wellFormedClock b.StartTime = true ∧ wellFormedClock b.EndTime = true

/-- Every stored booking starts before it ends. -/
def Store.properIntervals (s : Store) : Prop :=
  ∀ b ∈ s.bookings, parseClockOrZero b.StartTime < parseClockOrZero b.EndTime

/-- What two answers of `CreateBooking` have in common when they differ at
most in the primary key of the new row. -/
def sameOutcome : Except String Booking → Except String Booking → Prop
  | .ok b, .ok b0 => b = { b0 with ID := b.ID }
  | .error e, .error e0 => e = e0
  | _, _ => False

/-- A call that has returned a booking. -/
def BookingService.Call.succeeded : BookingService.Call → Bool
  | .done (.ok _) => true
  | _ => false

instance (s : Store) : Decidable s.noDoubleBooking := by
  unfold Store.noDoubleBooking; infer_instance

instance (s : Store) : Decidable s.noConfirmedOverlap := by
  unfold Store.noConfirmedOverlap; infer_instance

instance (s : Store) : Decidable s.clockTimes := by
  unfold Store.clockTimes; infer_instance

instance (s : Store) : Decidable s.properIntervals := by
  unfold Store.properIntervals; infer_instance

/-- The store `s` comes from `s0` by appending pending bookings. -/
def Store.grownFrom (s0 s : Store) : Prop :=
  s.courts = s0.courts ∧ s.loc = s0.loc
    ∧ ∃ extra, s.bookings = s0.bookings ++ extra ∧ ∀ b ∈ extra, b.Status = "pending"

/-- What a call of user `userID` with request `req` has found out so far is
what it would find out on the store `s0`. -/
def BookingService.Call.consistent (s0 : Store) (userID : Nat) (req : CreateBookingRequest) :
    BookingService.Call → Prop
  | .start u r => u = userID ∧ r = req
  | .haveCourt u r court date =>
    u = userID ∧ r = req ∧ BookingService.findActiveCourt s0 req.CourtID = some court
      ∧ parseDate req.Date = some date
  | .checked u r court date =>
    u = userID ∧ r = req ∧ BookingService.findActiveCourt s0 req.CourtID = some court
      ∧ parseDate req.Date = some date
      ∧ BookingService.checkAvailability s0 req.CourtID date req.StartTime req.EndTime = true
  | .done result => sameOutcome result (BookingService.CreateBooking s0 userID req).1

/-- The booking a call has stored: the one it has returned. -/
def BookingService.Call.stored : BookingService.Call → Option Booking
  | .done (.ok b) => some b
  | _ => none

/-- Every call in flight is consistent with the store `s0` the calls began
on, and the store is `s0` with the bookings the calls have returned so far
added to the bookings table, in the order of their inserts, which need not
be the order of the calls. -/
def BookingService.Running.consistent (s0 : Store) (reqs : List (Nat × CreateBookingRequest))
    (r : BookingService.Running) : Prop :=
  s0.grownFrom r.store
    ∧ (∃ extra, r.store = { s0 with bookings := s0.bookings ++ extra }
        ∧ extra.Perm (r.calls.filterMap BookingService.Call.stored))
    ∧ r.calls.length = reqs.length
    ∧ ∀ (i userID : Nat) (req : CreateBookingRequest) (c : BookingService.Call),
        reqs[i]? = some (userID, req) → r.calls[i]? = some c → c.consistent s0 userID req

/-- The number of statements a call has run, up to 3 when it has returned. -/
def BookingService.Call.phase : BookingService.Call → Nat
  | .start _ _ => 0
  | .haveCourt _ _ _ _ => 1
  | .checked _ _ _ _ => 2
  | .done _ => 3

/-! ## Cancellation, payments and court updates

The remaining operations that write to the store: `CancelBooking`
(`internal/services/booking.go`), `HandleWebhook`
(`internal/services/payment.go`), `UpdateCourt` and `CreateSpecialHours`
(`internal/services/court.go`).  The payment provider is outside the
repository: what it answers is an argument of `HandleWebhook`. -/

/-- The statement `Model(&models.Booking{}).Where("id = ?", id).Update("status",
status)` on the bookings table. -/
def setBookingStatus (bookings : List Booking) (id : Nat) (status : String) : List Booking :=
  bookings.map (fun b => if b.ID == id then { b with Status := status } else b)

/-- The method `BookingService.CancelBooking`: the error, if any, and the
store after the call. -/
def BookingService.CancelBooking (s : Store) (id userID : Nat) : Except String Unit × Store :=
  match s.bookings.find? (fun b => b.ID == id && b.UserID == userID) with
  | none => (.error "booking not found", s)
  | some booking =>
    if booking.Status == "cancelled" then (.error "booking already cancelled", s)
    else if booking.Status == "completed" then (.error "cannot cancel completed booking", s)
    else (.ok (), { s with bookings := setBookingStatus s.bookings booking.ID "cancelled" })

namespace PaymentService

/-- The answer of the provider's `GetPayment`, as far as `HandleWebhook`
reads it. -/
structure PaymentInfo where
  PreferenceID : String
  Status : String
  PaymentMethodID : String
  deriving DecidableEq, Repr

/-- The method `PaymentService.mapMercadoPagoStatus`. -/
def mapMercadoPagoStatus (status : String) : String :=
  match status with
  | "approved" => "approved"
  | "pending" => "pending"
  | "rejected" => "rejected"
  | "cancelled" => "cancelled"
  | _ => "pending"

/-- The statement `Save(&payment)` on the payments table: the live row with
the primary key of `payment` takes its columns. -/
def savePayment (payments : List Payment) (payment : Payment) : List Payment :=
  payments.map (fun p => if p.ID == payment.ID && !p.Deleted then payment else p)

/-- The query `Where("preference_id = ?", preferenceID).First(&payment)`. -/
def findByPreference (s : Store) (preferenceID : String) : Option Payment :=
  s.payments.find? (fun p => p.PreferenceID == preferenceID && !p.Deleted)

/-- The method `PaymentService.HandleWebhook`.  `dataID` is `data["id"]` when
it is a string, and `paymentInfo` is what the provider answers for that
payment, `none` when the request to the provider fails. -/
def HandleWebhook (s : Store) (dataID : Option String) (paymentInfo : Option PaymentInfo) :
    Except String Unit × Store :=
  match dataID with
  | none => (.error "invalid payment ID in webhook data", s)
  | some paymentID =>
    match paymentInfo with
    | none => (.error "failed to get payment info from MercadoPago", s)
    | some info =>
      match findByPreference s info.PreferenceID with
      | none => (.error "payment not found", s)
      | some found =>
        let payment : Payment :=
          { found with
            MercadoPagoID := paymentID
            Status := mapMercadoPagoStatus info.Status
            PaymentMethod := info.PaymentMethodID }
        let saved : Store := { s with payments := savePayment s.payments payment }
        if payment.Status == "approved" then
          (.ok (),
            { saved with
              bookings := setBookingStatus saved.bookings payment.BookingID "confirmed" })
        else (.ok (), saved)

end PaymentService

namespace CourtService

/-- The model `models.UpdateCourtRequest`, reduced to the columns kept in
`Court`; `none` is a nil pointer. -/
structure UpdateCourtRequest where
  Name : Option String
  PricePerHour : Option Rat
  IsActive : Option Bool
  deriving DecidableEq, Repr

/-- The method `CourtService.UpdateCourt`.  The `float64` of the request is
written to the `decimal(10,2)` column `price_per_hour`. -/
def UpdateCourt (s : Store) (id ownerID : Nat) (req : UpdateCourtRequest) :
    Except String Court × Store :=
  match s.courts.find? (fun c => c.ID == id && c.OwnerID == ownerID && !c.Deleted) with
  | none => (.error "court not found", s)
  | some court =>
    let saved : Store :=
      { s with
        courts := s.courts.map (fun c =>
          if c.ID == court.ID && !c.Deleted then
            { c with
              Name := req.Name.getD c.Name
              PricePerHour := (req.PricePerHour.map decimalColumn).getD c.PricePerHour
              IsActive := req.IsActive.getD c.IsActive }
          else c) }
    match saved.courts.find? (fun c => c.ID == id && !c.Deleted) with
    | none => (.error "failed to load updated court", saved)
    | some updated => (.ok updated, saved)

/-- The primary key the database gives to the next special-hours row. -/
def nextSpecialHourID (s : Store) : Nat :=
  (s.specialHours.foldl (fun m h => max m h.ID) 0) + 1

/-- The method `CourtService.CreateSpecialHours`.  `req.Date` stands for the
day the `date` column takes from the instant of the request. -/
def CreateSpecialHours (s : Store) (courtID ownerID : Nat) (req : SpecialHour) :
    Except String SpecialHour × Store :=
  match s.courts.find? (fun c => c.ID == courtID && c.OwnerID == ownerID && !c.Deleted) with
  | none => (.error "court not found", s)
  | some _ =>
    let specialHour : SpecialHour :=
      { ID := nextSpecialHourID s
        CourtID := courtID
        Date := req.Date
        OpenTime := req.OpenTime
        CloseTime := req.CloseTime
        IsClosed := req.IsClosed
        Reason := req.Reason }
    (.ok specialHour, { s with specialHours := s.specialHours ++ [specialHour] })

end CourtService

/-- A call of one of the operations that write to the store. -/
inductive Operation where
  | updateCourt (id ownerID : Nat) (req : CourtService.UpdateCourtRequest)
  | cancelBooking (id userID : Nat)
  | handleWebhook (dataID : Option String) (paymentInfo : Option PaymentService.PaymentInfo)
  | createSpecialHours (courtID ownerID : Nat) (req : SpecialHour)
  | createBooking (userID : Nat) (req : CreateBookingRequest)
  deriving DecidableEq, Repr

/-- The store after an operation. -/
def Operation.apply (s : Store) : Operation → Store
  | .updateCourt id ownerID req => (CourtService.UpdateCourt s id ownerID req).2
  | .cancelBooking id userID => (BookingService.CancelBooking s id userID).2
  | .handleWebhook dataID paymentInfo => (PaymentService.HandleWebhook s dataID paymentInfo).2
  | .createSpecialHours courtID ownerID req =>
    (CourtService.CreateSpecialHours s courtID ownerID req).2
  | .createBooking userID req => (BookingService.CreateBooking s userID req).2

/-- The store after a sequence of operations. -/
def Store.after (s : Store) (ops : List Operation) : Store :=
  ops.foldl Operation.apply s

/-- Primary keys of the courts table are unique. -/
def Store.courtKeys (s : Store) : Prop :=
  s.courts.Pairwise (fun a b => a.ID ≠ b.ID)

/-- Primary keys of the bookings table are unique. -/
def Store.bookingKeys (s : Store) : Prop :=
  s.bookings.Pairwise (fun a b => a.ID ≠ b.ID)

instance (s : Store) : Decidable s.courtKeys := by
  unfold Store.courtKeys; infer_instance

instance (s : Store) : Decidable s.bookingKeys := by
  unfold Store.bookingKeys; infer_instance

/-! ## Payment preferences and statistics (`internal/services/payment.go`)

The provider's `CreatePreference` and the generated UUID are outside the
repository: the provider's answer (`none` when its call fails) and the new
payment id are arguments of `CreatePreference`. -/

namespace PaymentService

/-- The model `models.CreatePreferenceRequest`. -/
structure CreatePreferenceRequest where
  BookingID : Nat
  PayerEmail : String
  deriving DecidableEq, Repr

/-- The model `models.PreferenceResponse`. -/
structure PreferenceResponse where
  ID : String
  InitPoint : String
  deriving DecidableEq, Repr

/-- The statement `Create(&payment)` on the payments table.  The table has
the primary key `id` and a unique index on `preference_id`
(`models.Payment`); both span soft-deleted rows, and the insert is refused
(`none`) when a stored row holds the same id or the same preference id. -/
def insertPayment (payments : List Payment) (payment : Payment) : Option (List Payment) :=
  if payments.any (fun p => p.ID == payment.ID || p.PreferenceID == payment.PreferenceID) then
    none
  else some (payments ++ [payment])

/-- The statement `Delete(&payment)` on the payments table: a soft delete of
the live row with the primary key of `payment`. -/
def deletePayment (payments : List Payment) (payment : Payment) : List Payment :=
  payments.map (fun p => if p.ID == payment.ID && !p.Deleted then { p with Deleted := true } else p)

/-- The query `Where("booking_id = ?", bookingID).First(&existingPayment)`. -/
def findByBooking (s : Store) (bookingID : Nat) : Option Payment :=
  s.payments.find? (fun p => p.BookingID == bookingID && !p.Deleted)

/-- The row `CreatePreference` inserts. -/
def newPayment (userID : Nat) (req : CreatePreferenceRequest) (paymentID : String)
    (booking : Booking) : Payment :=
  { ID := paymentID
    BookingID := req.BookingID
    UserID := userID
    Amount := booking.TotalPrice
    Currency := "ARS"
    Status := "pending"
    PreferenceID := ""
    MercadoPagoID := ""
    PaymentMethod := ""
    PayerEmail := req.PayerEmail
    Deleted := false }

/-- The method `PaymentService.CreatePreference`.  `paymentID` is the value
of `uuid.New().String()` and `preference` the answer of the provider. -/
def CreatePreference (s : Store) (userID : Nat) (req : CreatePreferenceRequest)
    (paymentID : String) (preference : Option PreferenceResponse) :
    Except String PreferenceResponse × Store :=
  match s.bookings.find? (fun b => b.ID == req.BookingID && b.UserID == userID) with
  | none => (.error "booking not found", s)
  | some booking =>
    match findByBooking s req.BookingID with
    | some _ => (.error "payment already exists for this booking", s)
    | none =>
      let payment := newPayment userID req paymentID booking
      match insertPayment s.payments payment with
      | none => (.error "failed to create payment", s)
      | some created =>
        match preference with
        | none =>
          (.error "failed to create MercadoPago preference",
            { s with payments := deletePayment created payment })
        | some pref =>
          let withPreference : Payment := { payment with PreferenceID := pref.ID }
          if created.any (fun p => p.ID != payment.ID && p.PreferenceID == pref.ID) then
            (.error "failed to update payment with preference ID", { s with payments := created })
          else (.ok pref, { s with payments := savePayment created withPreference })

/-- The quotient of two `float64` values when it is a number: dividing by
zero does not fail in Go but gives NaN or an infinity (`none`). -/
def floatDiv (x y : Rat) : Option Rat :=
  if y = 0 then none else some (float64 (x / y))

/-- The model `models.PaymentStatistics`; `AverageAmount` is `none` when the
`float64` is NaN or an infinity. -/
structure PaymentStatistics where
  TotalPayments : Nat
  ApprovedPayments : Nat
  PendingPayments : Nat
  RejectedPayments : Nat
  TotalRevenue : Rat
  AverageAmount : Option Rat
  deriving DecidableEq, Repr

/-- The rows of `Model(&models.Payment{}).Where("status = ?", status)`. -/
def paymentsWithStatus (s : Store) (status : String) : List Payment :=
  s.payments.filter (fun p => p.Status == status && !p.Deleted)

/-- The method `PaymentService.GetPaymentStatistics`.  `SUM(amount)` is an
exact decimal, scanned into the `float64` `totalRevenue`. -/
def GetPaymentStatistics (s : Store) : PaymentStatistics :=
  let totalPayments := (s.payments.filter (fun p => !p.Deleted)).length
  let approvedPayments := (paymentsWithStatus s "approved").length
  let pendingPayments := (paymentsWithStatus s "pending").length
  let rejectedPayments := (paymentsWithStatus s "rejected").length
  let totalRevenue :=
    float64 ((paymentsWithStatus s "approved").map (fun p => p.Amount)).sum
  let averageAmount : Option Rat :=
    if totalPayments > 0 then floatDiv totalRevenue approvedPayments else some 0
  { TotalPayments := totalPayments
    ApprovedPayments := approvedPayments
    PendingPayments := pendingPayments
    RejectedPayments := rejectedPayments
    TotalRevenue := totalRevenue
    AverageAmount := averageAmount }

end PaymentService

/-- Each booking has at most one payment that is neither soft-deleted nor
cancelled. -/
def Store.onePaymentPerBooking (s : Store) : Prop :=
  s.payments.Pairwise (fun p q =>
    p.BookingID = q.BookingID → p.Deleted = false → q.Deleted = false →
      p.Status ≠ "cancelled" → q.Status ≠ "cancelled" → False)

instance (s : Store) : Decidable s.onePaymentPerBooking := by
  unfold Store.onePaymentPerBooking; infer_instance

/-! ## Sample data -/

/-- Monday 18 March 2024. -/
def sampleDate : Date := { year := 2024, month := 3, day := 18 }

/-- An active court at 15 per hour. -/
def sampleCourt : Court :=
  { ID := 1, Name := "Central", PricePerHour := 15, OwnerID := 9, IsActive := true,
    Deleted := false }

/-- Weekly hours of the sample court: Monday 08:00-20:00. -/
def mondayHours : BusinessHour :=
  { ID := 1, CourtID := 1, DayOfWeek := 1, OpenTime := "08:00", CloseTime := "20:00" }

/-- Weekly hours of the sample court: Monday 09:00-12:00. -/
def mondayMorning : BusinessHour :=
  { ID := 1, CourtID := 1, DayOfWeek := 1, OpenTime := "09:00", CloseTime := "12:00" }

/-- A booking of the sample court on the sample date. -/
def sampleBooking (id userID : Nat) (startTime endTime status : String) : Booking :=
  { ID := id, CourtID := 1, UserID := userID, Date := sampleDate, StartTime := startTime,
    EndTime := endTime, Status := status, TotalPrice := 15, Notes := "" }

/-- A store holding the sample court with the given weekly hours and
bookings, on a server whose local time is UTC. -/
def sampleStore (hours : BusinessHour) (bookings : List Booking) : Store :=
  { courts := [sampleCourt], businessHours := [hours], specialHours := [],
    bookings := bookings, payments := [], loc := 0 }

/-- Sunday 17 March 2024. -/
def sampleSunday : Date := { year := 2024, month := 3, day := 17 }

/-- The sample store on a server three hours behind UTC, the offset of
`America/Argentina/Buenos_Aires`. -/
def westStore (bookings : List Booking) : Store :=
  { sampleStore mondayHours bookings with loc := -180 }

/-- A request for the sample court on the sample date. -/
def sampleRequest (startTime endTime : String) : CreateBookingRequest :=
  { CourtID := 1, Date := "2024-03-18", StartTime := startTime, EndTime := endTime, Notes := "" }

/-- The sample store with a Special Hours record that closes the sample date. -/
def closedMondayStore : Store :=
  { sampleStore mondayHours [] with
    specialHours :=
      [{ ID := 1, CourtID := 1, Date := sampleDate, OpenTime := none, CloseTime := none,
         IsClosed := true, Reason := "holiday" }] }

/-- A payment of booking 1 by user 7 with preference `pref-1`. -/
def samplePayment (status : String) : Payment :=
  { ID := "pay-1", BookingID := 1, UserID := 7, Amount := 15, Currency := "ARS",
    Status := status, PreferenceID := "pref-1", MercadoPagoID := "", PaymentMethod := "",
    PayerEmail := "ana@example.org", Deleted := false }

/-- The sample store with booking 1 (10:00-11:00, user 7) in the given status
and a pending payment for it. -/
def paidStore (bookingStatus : String) : Store :=
  { sampleStore mondayHours [sampleBooking 1 7 "10:00" "11:00" bookingStatus] with
    payments := [samplePayment "pending"] }

/-- The provider reports the payment of preference `pref-1` with a status. -/
def providerInfo (status : String) : PaymentService.PaymentInfo :=
  { PreferenceID := "pref-1", Status := status, PaymentMethodID := "visa" }

/-- Tuesday 19 March 2024. -/
def sampleTuesday : Date := { year := 2024, month := 3, day := 19 }

/-- The sample store with the pending booking 1 (10:00-11:00, user 7) and no
payment. -/
def unpaidStore : Store :=
  sampleStore mondayHours [sampleBooking 1 7 "10:00" "11:00" "pending"]

/-- The sample store with the pending bookings 1 (10:00-11:00, user 7) and 2
(11:00-12:00, user 8) and no payment. -/
def twoBookingsStore : Store :=
  sampleStore mondayHours [sampleBooking 1 7 "10:00" "11:00" "pending",
    sampleBooking 2 8 "11:00" "12:00" "pending"]

/-- A request of a payment preference for booking 1. -/
def preferenceRequest : PaymentService.CreatePreferenceRequest :=
  { BookingID := 1, PayerEmail := "ana@example.org" }

/-- An answer of the provider to `CreatePreference`. -/
def samplePreference : PaymentService.PreferenceResponse :=
  { ID := "pref-2", InitPoint := "checkout-2" }

/-! ## Theorems -/

open CourtService BookingService PaymentService

theorem roundEven_error (x : Rat) : |(roundEven x : Rat) - x| ≤ 1 / 2 := by
  have h1 := Int.floor_le x
  have h2 := Int.lt_floor_add_one x
  unfold roundEven
  dsimp only
  split_ifs <;> push_cast <;> rw [abs_le] <;> constructor <;> linarith

theorem roundEven_eq (x : Rat) (k : Int) (h : |x - k| < 1 / 2) : roundEven x = k := by
  have hx := roundEven_error x
  rw [abs_lt] at h
  rw [abs_le] at hx
  have h1 : ((roundEven x : Int) : Rat) < (k : Rat) + 1 := by linarith
  have h2 : (k : Rat) < ((roundEven x : Int) : Rat) + 1 := by linarith
  have h3 : roundEven x < k + 1 := by exact_mod_cast h1
  have h4 : k < roundEven x + 1 := by exact_mod_cast h2
  omega

theorem float64_error (x : Rat) : |float64 x - x| ≤ |x| / 2 ^ 53 := by
  unfold float64
  split_ifs with h0
  · simp [h0]
  · dsimp only
    have hpos : (0 : Rat) < |x| := abs_pos.mpr h0
    have hle : ((2 : Nat) : Rat) ^ Int.log 2 |x| ≤ |x| := Int.zpow_log_le_self (by norm_num) hpos
    rw [Nat.cast_ofNat] at hle
    generalize Int.log 2 |x| = e at hle
    have hulp : (0 : Rat) < 2 ^ (e - 52) := by positivity
    have hr := roundEven_error (x / 2 ^ (e - 52))
    have hrw : (roundEven (x / 2 ^ (e - 52)) : Rat) * 2 ^ (e - 52) - x
        = ((roundEven (x / 2 ^ (e - 52)) : Rat) - x / 2 ^ (e - 52)) * 2 ^ (e - 52) := by
      field_simp
    rw [hrw, abs_mul, abs_of_pos hulp]
    have hsplit : (2 : Rat) ^ (e - 52) = 2 ^ e / 2 ^ 52 := by
      rw [zpow_sub₀ (by norm_num : (2 : Rat) ≠ 0)]
      norm_num
    have he : (0 : Rat) < 2 ^ e := by positivity
    calc |(roundEven (x / 2 ^ (e - 52)) : Rat) - x / 2 ^ (e - 52)| * 2 ^ (e - 52)
        ≤ 1 / 2 * 2 ^ (e - 52) := by gcongr
      _ = 2 ^ e / 2 ^ 53 := by rw [hsplit]; ring
      _ ≤ |x| / 2 ^ 53 := by gcongr

theorem float64_zero : float64 0 = 0 := by
  simp [float64]

theorem float64_intCast (n : Int) (h : |n| < 2 ^ 52) : float64 (n : Rat) = n := by
  unfold float64
  split_ifs with h0
  · exact h0.symm
  · dsimp only
    have hpos : (0 : Rat) < |(n : Rat)| := abs_pos.mpr h0
    have hle : ((2 : Nat) : Rat) ^ Int.log 2 |(n : Rat)| ≤ |(n : Rat)| :=
      Int.zpow_log_le_self (by norm_num) hpos
    rw [Nat.cast_ofNat] at hle
    generalize Int.log 2 |(n : Rat)| = e at hle
    have hlt : |(n : Rat)| < 2 ^ (52 : Int) := by
      have : ((|n| : Int) : Rat) < ((2 ^ 52 : Int) : Rat) := by exact_mod_cast h
      rw [Int.cast_abs] at this
      norm_num at this ⊢
      exact this
    have he : e < 52 := by
      have := lt_of_le_of_lt hle hlt
      exact (zpow_lt_zpow_iff_right₀ (by norm_num : (1 : Rat) < 2)).mp this
    obtain ⟨k, hk⟩ : ∃ k : Nat, e - 52 = -(k : Int) := ⟨(52 - e).toNat, by omega⟩
    rw [hk, zpow_neg, zpow_natCast]
    have hcast : (n : Rat) / (2 ^ k)⁻¹ = ((n * 2 ^ k : Int) : Rat) := by
      push_cast
      field_simp
    rw [hcast, roundEven_eq _ (n * 2 ^ k) (by simp)]
    push_cast
    field_simp

theorem float64_of_int (x : Rat) (n : Int) (hx : x = n) (h : |n| < 2 ^ 52) : float64 x = x := by
  rw [hx]
  exact float64_intCast n h

theorem roundHalfAway_error (x : Rat) : |(roundHalfAway x : Rat) - x| ≤ 1 / 2 := by
  unfold roundHalfAway
  split_ifs
  · have h1 := Int.floor_le (x + 1 / 2)
    have h2 := Int.lt_floor_add_one (x + 1 / 2)
    rw [abs_le]; constructor <;> linarith
  · have h1 := Int.floor_le (-x + 1 / 2)
    have h2 := Int.lt_floor_add_one (-x + 1 / 2)
    push_cast
    rw [abs_le]; constructor <;> linarith

theorem roundHalfAway_eq (x : Rat) (k : Int) (h : |x - k| < 1 / 2) : roundHalfAway x = k := by
  have hx := roundHalfAway_error x
  rw [abs_lt] at h
  rw [abs_le] at hx
  have h1 : ((roundHalfAway x : Int) : Rat) < (k : Rat) + 1 := by linarith
  have h2 : (k : Rat) < ((roundHalfAway x : Int) : Rat) + 1 := by linarith
  have h3 : roundHalfAway x < k + 1 := by exact_mod_cast h1
  have h4 : k < roundHalfAway x + 1 := by exact_mod_cast h2
  omega

theorem shortestDecimal_spec (x : Rat) :
    float64 (shortestDecimal x) = x ∨ shortestDecimal x = x := by
  unfold shortestDecimal
  split
  · rename_i d h
    have := List.find?_some h
    exact Or.inl (by simpa using this)
  · exact Or.inr rfl

theorem shortestDecimal_error (x : Rat) : |shortestDecimal x - x| ≤ |x| / 2 ^ 52 := by
  rcases shortestDecimal_spec x with h | h
  · have herr := float64_error (shortestDecimal x)
    rw [h] at herr
    have h1 : |shortestDecimal x| ≤ |x| + |shortestDecimal x - x| := by
      have := abs_add (shortestDecimal x - x) x
      simp only [sub_add_cancel] at this
      linarith
    rw [abs_sub_comm] at herr
    have hd : 0 ≤ |shortestDecimal x - x| := abs_nonneg _
    rw [le_div_iff₀ (by norm_num)] at herr ⊢
    norm_num at herr ⊢
    linarith
  · rw [h]
    simp only [sub_self, abs_zero]
    positivity

/-- A `float64` within 0.0045 of a whole number of cents is stored as that
number of cents. -/
theorem decimalColumn_eq (x : Rat) (cents : Int) (h : |x - cents / 100| ≤ 9 / 2000)
    (hx : |x| ≤ 10 ^ 12) : decimalColumn x = cents / 100 := by
  have hs := shortestDecimal_error x
  have hk : roundHalfAway (shortestDecimal x * 100) = cents := by
    apply roundHalfAway_eq
    rw [abs_le] at h hs
    have hx0 : |x| / 2 ^ 52 ≤ 1 / 4000 := by
      rw [div_le_iff₀ (by norm_num)]
      norm_num
      linarith
    rw [abs_lt]
    constructor <;> linarith
  unfold decimalColumn
  rw [hk]

theorem decimalColumn_of_int (x : Rat) (n : Int) (hx : x = n) (h : |n| ≤ 10 ^ 10) :
    decimalColumn x = x := by
  have hn : |(n : Rat)| ≤ 10 ^ 10 := by
    have : ((|n| : Int) : Rat) ≤ ((10 ^ 10 : Int) : Rat) := by exact_mod_cast h
    rw [Int.cast_abs] at this
    norm_num at this ⊢
    exact this
  rw [decimalColumn_eq x (100 * n) (by rw [hx]; push_cast; norm_num) (by rw [hx]; linarith)]
  rw [hx]
  push_cast
  ring

theorem digitChar_toNat (n : Nat) : (digitChar n).toNat = 48 + n % 10 := by
  have h : ∀ k, k < 10 → (Char.ofNat (48 + k)).toNat = 48 + k := by decide
  exact h (n % 10) (Nat.mod_lt n (by decide))

theorem isDigit_digitChar (n : Nat) : isDigit (digitChar n) = true := by
  have := Nat.mod_lt n (show 0 < 10 by decide)
  simp [isDigit, digitChar_toNat]; omega

theorem digitVal_digitChar (n : Nat) : digitVal (digitChar n) = n % 10 := by
  simp [digitVal, digitChar_toNat]

theorem getnum_twoDigits (n : Nat) (hn : n < 100) (rest : List Char) (fixed : Bool) :
    getnum (twoDigits n ++ rest) fixed = some (n, rest) := by
  simp [twoDigits, getnum, isDigit_digitChar, digitVal_digitChar]
  omega

theorem parseClock_formatClock (t : Nat) (ht : t < 1440) : parseClock (formatClock t) = some t := by
  have h3 : t / 60 % 24 = t / 60 := Nat.mod_eq_of_lt (by omega)
  have h1 : t / 60 < 100 := by omega
  have h2 : t % 60 < 100 := by omega
  have h4 : ¬ 24 ≤ t / 60 := by omega
  have h5 : ¬ 60 ≤ t % 60 := by omega
  have h6 : t / 60 * 60 + t % 60 = t := by omega
  have h7 : twoDigits (t % 60) = twoDigits (t % 60) ++ [] := by simp
  simp only [parseClock, formatClock, h3]
  rw [getnum_twoDigits _ h1]
  simp only [h4, if_false, ne_eq, not_true_eq_false]
  rw [h7, getnum_twoDigits _ h2]
  simp [h5, h6]

theorem parseClockOrZero_formatClock (t : Nat) (ht : t < 1440) :
    parseClockOrZero (formatClock t) = t := by
  simp [parseClockOrZero, parseClock_formatClock t ht]

theorem getnum_lt (s : List Char) (fixed : Bool) (n : Nat) (rest : List Char)
    (h : getnum s fixed = some (n, rest)) : n < 100 := by
  unfold getnum at h
  split at h
  · simp at h
  · rename_i c0 tl
    split at h
    · simp at h
    · rename_i hd0
      have d0 : digitVal c0 ≤ 9 := by
        simp [isDigit] at hd0
        simp [digitVal]; omega
      split at h
      · split at h
        · simp at h
        · simp at h; omega
      · rename_i c1 tl1
        split at h
        · split at h
          · simp at h
          · simp at h; omega
        · rename_i hd1
          have d1 : digitVal c1 ≤ 9 := by
            simp [isDigit] at hd1
            simp [digitVal]; omega
          simp at h; omega

theorem parseClock_lt (s : String) (t : Nat) (h : parseClock s = some t) : t < 1440 := by
  unfold parseClock at h
  split at h
  · simp at h
  · rename_i hour afterHour _
    split at h
    · simp at h
    · split at h
      · simp at h
      · split at h
        · simp at h
        · split at h
          · simp at h
          · rename_i min afterMin _
            split at h
            · simp at h
            · rename_i hmin
              split at h
              · have ht : hour * 60 + min = t := by simpa using h
                omega
              · simp at h

theorem wellFormedClock_iff (s : String) :
    wellFormedClock s = true ↔ ∃ t, t < 1440 ∧ s = formatClock t := by
  constructor
  · intro h
    unfold wellFormedClock at h
    split at h
    · simp at h
    · rename_i t ht
      exact ⟨t, parseClock_lt s t ht, (by simpa using h : formatClock t = s).symm⟩
  · rintro ⟨t, ht, rfl⟩
    simp [wellFormedClock, parseClock_formatClock t ht]

theorem sqlLt_irrefl (l : List Char) : sqlLt l l = false := by
  induction l with
  | nil => rfl
  | cons a l ih => simp [sqlLt, ih]

theorem sqlLt_five (a1 a2 a3 a4 b1 b2 b3 b4 c : Char) :
    sqlLt [a1, a2, c, a3, a4] [b1, b2, c, b3, b4] =
      if a1.toNat < b1.toNat then true else if b1.toNat < a1.toNat then false
      else if a2.toNat < b2.toNat then true else if b2.toNat < a2.toNat then false
      else if a3.toNat < b3.toNat then true else if b3.toNat < a3.toNat then false
      else if a4.toNat < b4.toNat then true else false := by
  simp only [sqlLt, Nat.lt_irrefl, if_false]
  split_ifs <;> rfl

theorem textLt_formatClock (a b : Nat) (ha : a < 1440) (hb : b < 1440) :
    textLt (formatClock a) (formatClock b) = decide (a < b) := by
  have e1 : a / 60 % 24 = a / 60 := Nat.mod_eq_of_lt (by omega)
  have e2 : b / 60 % 24 = b / 60 := Nat.mod_eq_of_lt (by omega)
  unfold textLt formatClock twoDigits
  rw [e1, e2]
  show sqlLt [_, _, _, _, _] [_, _, _, _, _] = _
  rw [sqlLt_five]
  simp only [digitChar_toNat]
  by_cases h : a < b
  · simp only [h, decide_True]
    split_ifs <;> first | rfl | omega
  · simp only [h, decide_False]
    split_ifs <;> first | rfl | omega

theorem generateLoop_eq (r : Rat) (closeT : Nat) (n : Nat) :
    ∀ (fuel cur : Nat), n ≤ fuel → cur + 60 * n ≤ closeT → closeT < cur + 60 * (n + 1) →
      generateLoop r closeT fuel cur =
        (List.range n).map (fun k =>
          { StartTime := formatClock (cur + 60 * k)
            EndTime := formatClock (cur + 60 * k + 60)
            Available := true
            Price := r }) := by
  induction n with
  | zero =>
    intro fuel cur _ _ h2
    cases fuel with
    | zero => rfl
    | succ f =>
      simp only [generateLoop, List.range_zero, List.map_nil]
      split_ifs <;> rfl
  | succ n ih =>
    intro fuel cur hf h1 h2
    cases fuel with
    | zero => omega
    | succ f =>
      have c1 : cur < closeT := by omega
      have c2 : ¬ closeT < cur + 60 := by omega
      simp only [generateLoop, c1, c2, if_true, if_false]
      rw [ih f (cur + 60) (by omega) (by omega) (by omega), List.range_succ_eq_map]
      simp only [List.map_cons, List.map_map, Nat.mul_zero, Nat.add_zero]
      congr 1
      apply List.map_congr_left
      intro k _
      simp only [Function.comp, Nat.succ_eq_add_one]
      have e : cur + 60 + 60 * k = cur + 60 * (k + 1) := by omega
      rw [e]

/-- C7: for zero-padded `HH:MM` texts of an opening minute `a` and a closing
minute `b` of one day with `a ≤ b`, and every rate `r`, `generateTimeSlots`
returns exactly `(b - a) / 60` slots (the floor of the window length in
hours); slot number `k`, counted from 0, runs from `a + k` hours to
`a + (k + 1)` hours, is flagged available and costs `r`. -/
theorem generateTimeSlots_hourly (a b : Nat) (hb : b < 1440) (hab : a ≤ b) (r : Rat) :
    generateTimeSlots (formatClock a) (formatClock b) r =
      (List.range ((b - a) / 60)).map (fun k =>
        { StartTime := formatClock (a + 60 * k)
          EndTime := formatClock (a + 60 * k + 60)
          Available := true
          Price := r }) := by
  unfold generateTimeSlots
  simp only [parseClockOrZero_formatClock a (by omega), parseClockOrZero_formatClock b hb]
  apply generateLoop_eq
  · exact Nat.div_le_self _ _
  · omega
  · omega

/-- Witness of C7: the window 09:00-12:00 at rate 10 gives the three slots
09:00-10:00, 10:00-11:00 and 11:00-12:00, each costing 10. -/
theorem generateTimeSlots_hourly_witness :
    (720 < 1440 ∧ 540 ≤ 720 ∧ 585 < 1440 ∧ 540 ≤ 585) ∧
    generateTimeSlots "09:00" "12:00" 10 =
      [⟨"09:00", "10:00", true, 10⟩, ⟨"10:00", "11:00", true, 10⟩, ⟨"11:00", "12:00", true, 10⟩] ∧
    generateTimeSlots "09:00" "09:45" 10 = [] :=
  ⟨by decide,
   (generateTimeSlots_hourly 540 720 (by decide) (by decide) 10).trans (by decide),
   (generateTimeSlots_hourly 540 585 (by decide) (by decide) 10).trans (by decide)⟩

/-- C4: for a slot and a booking whose start and end times are the
zero-padded `HH:MM` texts of the minutes `a`, `b` (slot) and `c`, `d`
(booking) of a day, `isTimeSlotOverlapping` answers true exactly when the
slot starts before the booking ends and the booking starts before the slot
ends. -/
theorem isTimeSlotOverlapping_iff (slot : TimeSlot) (booking : Booking) (a b c d : Nat)
    (ha : a < 1440) (hb : b < 1440) (hc : c < 1440) (hd : d < 1440)
    (h1 : slot.StartTime = formatClock a) (h2 : slot.EndTime = formatClock b)
    (h3 : booking.StartTime = formatClock c) (h4 : booking.EndTime = formatClock d) :
    isTimeSlotOverlapping slot booking = true ↔ a < d ∧ c < b := by
  simp [isTimeSlotOverlapping, h1, h2, h3, h4, parseClockOrZero_formatClock, ha, hb, hc, hd]

/-- Witness of C4: the slot 10:00-11:00 against a booking 10:30-11:30. -/
theorem isTimeSlotOverlapping_iff_witness :
    isTimeSlotOverlapping ⟨"10:00", "11:00", true, 15⟩
        ⟨1, 1, 7, ⟨2024, 3, 18⟩, "10:30", "11:30", "confirmed", 15, ""⟩ = true
      ↔ 600 < 690 ∧ 630 < 660 :=
  isTimeSlotOverlapping_iff _ _ 600 660 630 690 (by decide) (by decide) (by decide) (by decide)
    (by decide) (by decide) (by decide) (by decide)

/-- C5: let the slot and the booking called A carry one interval (the
zero-padded `HH:MM` texts of the minutes `a`, `b`) and those called B another
(`c`, `d`).  Then `isTimeSlotOverlapping` gives the same answer for (A, B)
and for (B, A), and answers true for (A, A) when `a < b`. -/
theorem isTimeSlotOverlapping_symm_refl (slotA slotB : TimeSlot) (bookingA bookingB : Booking)
    (a b c d : Nat) (ha : a < 1440) (hb : b < 1440)
    (sA1 : slotA.StartTime = formatClock a) (sA2 : slotA.EndTime = formatClock b)
    (bA1 : bookingA.StartTime = formatClock a) (bA2 : bookingA.EndTime = formatClock b)
    (sB1 : slotB.StartTime = formatClock c) (sB2 : slotB.EndTime = formatClock d)
    (bB1 : bookingB.StartTime = formatClock c) (bB2 : bookingB.EndTime = formatClock d) :
    isTimeSlotOverlapping slotA bookingB = isTimeSlotOverlapping slotB bookingA
      ∧ (a < b → isTimeSlotOverlapping slotA bookingA = true) := by
  constructor
  · simp only [isTimeSlotOverlapping, sA1, sA2, bA1, bA2, sB1, sB2, bB1, bB2]
    exact Bool.and_comm _ _
  · intro hab
    simp [isTimeSlotOverlapping, sA1, sA2, bA1, bA2, parseClockOrZero_formatClock, ha, hb, hab]

/-- Witness of C5: A is 10:00-11:00 and B is 10:30-11:30. -/
theorem isTimeSlotOverlapping_symm_refl_witness :
    isTimeSlotOverlapping ⟨"10:00", "11:00", true, 15⟩
        ⟨2, 1, 8, ⟨2024, 3, 18⟩, "10:30", "11:30", "confirmed", 15, ""⟩
      = isTimeSlotOverlapping ⟨"10:30", "11:30", true, 15⟩
        ⟨1, 1, 7, ⟨2024, 3, 18⟩, "10:00", "11:00", "confirmed", 15, ""⟩
      ∧ (600 < 660 → isTimeSlotOverlapping ⟨"10:00", "11:00", true, 15⟩
        ⟨1, 1, 7, ⟨2024, 3, 18⟩, "10:00", "11:00", "confirmed", 15, ""⟩ = true) :=
  isTimeSlotOverlapping_symm_refl _ _ _ _ 600 660 630 690 (by decide) (by decide)
    (by decide) (by decide) (by decide) (by decide) (by decide) (by decide)
    (by decide) (by decide)

/-- C6, amended: an existing booking A whose times are zero-padded `HH:MM`
texts with A.start < A.end does not meet the conflict condition of
`checkAvailability` for a request that touches it (A.end = request start, or
request end = A.start), and so is not among the rows the check counts. -/
theorem conflictCondition_touching (A : Booking) (startTime endTime : String) (a b : Nat)
    (hb : b < 1440) (hab : a < b)
    (h1 : A.StartTime = formatClock a) (h2 : A.EndTime = formatClock b)
    (touch : A.EndTime = startTime ∨ endTime = A.StartTime) :
    conflictCondition A startTime endTime = false
      ∧ ∀ s : Store, A ∉ conflictingBookings s A.CourtID A.Date startTime endTime := by
  have hlt : textLt (formatClock a) (formatClock b) = true := by
    rw [textLt_formatClock a b (by omega) hb]; simpa using hab
  have key : conflictCondition A startTime endTime = false := by
    rcases touch with h | h
    · subst h
      simp only [conflictCondition, textLt, textGt, textGe, textLe, sqlLt_irrefl, h1, h2]
      simp only [textLt] at hlt
      simp [hlt]
    · subst h
      simp only [conflictCondition, textLt, textGt, textGe, textLe, sqlLt_irrefl, h1, h2]
      simp only [textLt] at hlt
      simp [hlt]
  refine ⟨key, ?_⟩
  intro s hmem
  simp [conflictingBookings, key] at hmem

/-- Witness of C6: the booking 09:00-10:00 and the request 10:00-11:00. -/
theorem conflictCondition_touching_witness :
    conflictCondition ⟨1, 1, 7, ⟨2024, 3, 18⟩, "09:00", "10:00", "confirmed", 15, ""⟩
        "10:00" "11:00" = false
      ∧ ∀ s : Store, (⟨1, 1, 7, ⟨2024, 3, 18⟩, "09:00", "10:00", "confirmed", 15, ""⟩ : Booking) ∉
          conflictingBookings s 1 ⟨2024, 3, 18⟩ "10:00" "11:00" :=
  conflictCondition_touching ⟨1, 1, 7, ⟨2024, 3, 18⟩, "09:00", "10:00", "confirmed", 15, ""⟩
    "10:00" "11:00" 540 600 (by decide) (by decide) (by decide) (by decide) (Or.inl (by decide))

/-- Counterexample to C6: a stored confirmed booking 10:00-10:00 ends where
the request 10:00-11:00 starts, yet it meets the third disjunct of the
conflict condition and the request is rejected. -/
theorem conflictCondition_touching_degenerate :
    (sampleBooking 1 7 "10:00" "10:00" "confirmed").EndTime = "10:00"
      ∧ conflictCondition (sampleBooking 1 7 "10:00" "10:00" "confirmed") "10:00" "11:00" = true
      ∧ (CreateBooking (sampleStore mondayHours [sampleBooking 1 7 "10:00" "10:00" "confirmed"]) 8
          (sampleRequest "10:00" "11:00")).1 = .error "time slot not available" := by
  decide

theorem generateLoop_available (r : Rat) (closeT : Nat) :
    ∀ (fuel cur : Nat), ∀ slot ∈ generateLoop r closeT fuel cur, slot.Available = true := by
  intro fuel
  induction fuel with
  | zero => intro cur slot h; simp [generateLoop] at h
  | succ f ih =>
    intro cur slot h
    simp only [generateLoop] at h
    split_ifs at h
    · simp at h
    · rcases List.mem_cons.mp h with h | h
      · rw [h]
      · exact ih _ _ h
    · simp at h

/-- C8, amended: for an existing court with a weekly entry for the weekday
of the date, `GetAvailability` returns exactly the candidate slots generated
from that entry that overlap none of the fetched bookings, in generation
order and each flagged available; a candidate that overlaps a fetched
booking is left out of the list, not returned with the flag false. -/
theorem GetAvailability_filtered (s : Store) (courtID : Nat) (date : Date) (court : Court)
    (bh : BusinessHour) (hc : GetCourtByID s courtID = .ok court)
    (hb : s.businessHours.find?
        (fun bh => bh.CourtID == courtID && bh.DayOfWeek == weekday date) = some bh) :
    ∃ slots, GetAvailability s courtID date = .ok slots
      ∧ (∀ slot, slot ∈ slots ↔
          (slot ∈ generateTimeSlots bh.OpenTime bh.CloseTime court.PricePerHour
            ∧ ∀ b ∈ confirmedBookings s courtID date, isTimeSlotOverlapping slot b = false))
      ∧ (∀ slot ∈ slots, slot.Available = true)
      ∧ slots.Sublist (generateTimeSlots bh.OpenTime bh.CloseTime court.PricePerHour) := by
  refine ⟨filterAvailableSlots (generateTimeSlots bh.OpenTime bh.CloseTime court.PricePerHour)
    (confirmedBookings s courtID date), by simp only [GetAvailability, hc, hb], ?_, ?_, ?_⟩
  · intro slot
    simp [filterAvailableSlots, List.mem_filter]
  · intro slot h
    simp only [filterAvailableSlots, List.mem_filter] at h
    exact generateLoop_available _ _ _ _ slot h.1
  · exact List.filter_sublist _

/-- Witness of C8: Monday 09:00-12:00 with a confirmed booking 10:00-11:00. -/
theorem GetAvailability_filtered_witness :
    ∃ slots, GetAvailability
        (sampleStore mondayMorning [sampleBooking 1 7 "10:00" "11:00" "confirmed"]) 1 sampleDate
          = .ok slots
      ∧ (∀ slot, slot ∈ slots ↔
          (slot ∈ generateTimeSlots mondayMorning.OpenTime mondayMorning.CloseTime
              sampleCourt.PricePerHour
            ∧ ∀ b ∈ confirmedBookings
                (sampleStore mondayMorning [sampleBooking 1 7 "10:00" "11:00" "confirmed"]) 1
                sampleDate,
              isTimeSlotOverlapping slot b = false))
      ∧ (∀ slot ∈ slots, slot.Available = true)
      ∧ slots.Sublist (generateTimeSlots mondayMorning.OpenTime mondayMorning.CloseTime
          sampleCourt.PricePerHour) :=
  GetAvailability_filtered _ 1 sampleDate sampleCourt mondayMorning (by decide) (by decide)

/-- Counterexample to C8: with Monday hours 09:00-12:00 and a confirmed
booking 10:00-11:00 the candidates are three slots, but the answer holds only
two: the slot 10:00-11:00 is missing instead of being flagged unavailable. -/
theorem GetAvailability_drops_taken_slot :
    generateTimeSlots "09:00" "12:00" 15 =
        [⟨"09:00", "10:00", true, 15⟩, ⟨"10:00", "11:00", true, 15⟩, ⟨"11:00", "12:00", true, 15⟩]
      ∧ GetAvailability
          (sampleStore mondayMorning [sampleBooking 1 7 "10:00" "11:00" "confirmed"]) 1 sampleDate
        = .ok [⟨"09:00", "10:00", true, 15⟩, ⟨"11:00", "12:00", true, 15⟩] := by
  decide

/-- Counterexample to C9: the slot 10:00-11:00 overlaps a stored pending
booking of the court and date and is offered all the same. -/
theorem GetAvailability_offers_pending_slot :
    isTimeSlotOverlapping ⟨"10:00", "11:00", true, 15⟩
        (sampleBooking 1 7 "10:00" "11:00" "pending") = true
      ∧ GetAvailability
          (sampleStore mondayMorning [sampleBooking 1 7 "10:00" "11:00" "pending"]) 1 sampleDate
        = .ok [⟨"09:00", "10:00", true, 15⟩, ⟨"10:00", "11:00", true, 15⟩,
            ⟨"11:00", "12:00", true, 15⟩] := by
  decide

theorem confirmedBookings_filter (s : Store) (courtID : Nat) (date : Date) :
    confirmedBookings
        { s with bookings := s.bookings.filter (fun b => b.Status == "confirmed") } courtID date
      = confirmedBookings s courtID date := by
  simp only [confirmedBookings, List.filter_filter]
  congr 1
  funext b
  by_cases h : b.Status = "confirmed" <;> simp [h]

/-- C9, amended: no slot returned by `GetAvailability` overlaps a stored
booking of that court and date with status confirmed; bookings with any other
status, pending included, do not change the answer. -/
theorem GetAvailability_confirmed_only (s : Store) (courtID : Nat) (date : Date)
    (slots : List TimeSlot) (h : GetAvailability s courtID date = .ok slots) :
    (∀ slot ∈ slots, ∀ b ∈ s.bookings, b.CourtID = courtID → b.Date = date →
        b.Status = "confirmed" → isTimeSlotOverlapping slot b = false)
      ∧ GetAvailability
          { s with bookings := s.bookings.filter (fun b => b.Status == "confirmed") }
          courtID date = .ok slots := by
  constructor
  · intro slot hslot b hb h1 h2 h3
    unfold GetAvailability at h
    split at h
    · simp at h
    · dsimp only at h
      split at h
      · simp at h
      · simp only [Except.ok.injEq] at h
        subst h
        simp only [filterAvailableSlots, List.mem_filter, Bool.not_eq_true', List.any_eq_false]
          at hslot
        have := hslot.2 b (by simp [confirmedBookings, List.mem_filter, hb, h1, h2, h3])
        simpa using this
  · rw [← h]
    simp only [GetAvailability, GetCourtByID, confirmedBookings_filter]

/-- Witness of C9: Monday 09:00-12:00 with a confirmed booking 10:00-11:00
and a pending booking 11:00-12:00. -/
theorem GetAvailability_confirmed_only_witness :
    (∀ slot ∈ [(⟨"09:00", "10:00", true, 15⟩ : TimeSlot), ⟨"11:00", "12:00", true, 15⟩],
        ∀ b ∈ (sampleStore mondayMorning [sampleBooking 1 7 "10:00" "11:00" "confirmed",
            sampleBooking 2 8 "11:00" "12:00" "pending"]).bookings,
          b.CourtID = 1 → b.Date = sampleDate →
          b.Status = "confirmed" → isTimeSlotOverlapping slot b = false)
      ∧ GetAvailability
          { sampleStore mondayMorning [sampleBooking 1 7 "10:00" "11:00" "confirmed",
              sampleBooking 2 8 "11:00" "12:00" "pending"] with
            bookings := (sampleStore mondayMorning [sampleBooking 1 7 "10:00" "11:00" "confirmed",
              sampleBooking 2 8 "11:00" "12:00" "pending"]).bookings.filter
                (fun b => b.Status == "confirmed") }
          1 sampleDate
        = .ok [⟨"09:00", "10:00", true, 15⟩, ⟨"11:00", "12:00", true, 15⟩] :=
  GetAvailability_confirmed_only _ 1 sampleDate _ (by decide)

/-- Counterexample to C10: the court has weekly Monday hours 08:00-20:00 and
a Special Hours record that closes Monday 18 March 2024, and `GetAvailability`
still returns the twelve slots of the weekly entry for that date. -/
theorem GetAvailability_ignores_closed_day :
    weekday sampleDate = 1
      ∧ (∃ sh ∈ closedMondayStore.specialHours,
          sh.CourtID = 1 ∧ sh.Date = sampleDate ∧ sh.IsClosed = true)
      ∧ GetAvailability closedMondayStore 1 sampleDate
          = .ok (generateTimeSlots "08:00" "20:00" 15)
      ∧ (generateTimeSlots "08:00" "20:00" 15).length = 12 := by
  decide

/-- C10, amended: `GetAvailability` never reads the Special Hours records:
for every court and date its answer is the same whatever records are stored,
closing the day or giving other times, and comes from the weekly
business-hours entry of the weekday alone. -/
theorem GetAvailability_specialHours_unread (s : Store) (records : List SpecialHour)
    (courtID : Nat) (date : Date) :
    GetAvailability { s with specialHours := records } courtID date
      = GetAvailability s courtID date := by
  rfl

theorem textLt_wellFormed (x y : String) (hx : wellFormedClock x = true)
    (hy : wellFormedClock y = true) :
    textLt x y = decide (parseClockOrZero x < parseClockOrZero y) := by
  obtain ⟨a, ha, rfl⟩ := (wellFormedClock_iff x).mp hx
  obtain ⟨b, hb, rfl⟩ := (wellFormedClock_iff y).mp hy
  rw [parseClockOrZero_formatClock a ha, parseClockOrZero_formatClock b hb,
    textLt_formatClock a b ha hb]

theorem conflictCondition_eq (b : Booking) (st en : String)
    (hb1 : wellFormedClock b.StartTime = true) (hb2 : wellFormedClock b.EndTime = true)
    (h1 : wellFormedClock st = true) (h2 : wellFormedClock en = true) :
    conflictCondition b st en =
      ((decide (parseClockOrZero b.StartTime < parseClockOrZero en)
          && decide (parseClockOrZero st < parseClockOrZero b.EndTime))
        || (decide (parseClockOrZero st ≤ parseClockOrZero b.StartTime)
          && decide (parseClockOrZero b.EndTime ≤ parseClockOrZero en))) := by
  have e1 : textLt b.StartTime en
      = decide (parseClockOrZero b.StartTime < parseClockOrZero en) :=
    textLt_wellFormed _ _ hb1 h2
  have e2 : textGt b.EndTime st
      = decide (parseClockOrZero st < parseClockOrZero b.EndTime) :=
    textLt_wellFormed _ _ h1 hb2
  have e3 : textGe b.StartTime st
      = !decide (parseClockOrZero b.StartTime < parseClockOrZero st) :=
    congrArg (fun x => !x) (textLt_wellFormed _ _ hb1 h1)
  have e4 : textLe b.EndTime en
      = !decide (parseClockOrZero en < parseClockOrZero b.EndTime) :=
    congrArg (fun x => !x) (textLt_wellFormed _ _ h2 hb2)
  simp only [conflictCondition, e1, e2, e3, e4, Bool.or_self]
  congr 1
  by_cases c1 : parseClockOrZero b.StartTime < parseClockOrZero st <;>
    by_cases c2 : parseClockOrZero en < parseClockOrZero b.EndTime <;>
    simp [c1, c2]
  omega

theorem conflictCondition_iff_overlap (b : Booking) (st en : String)
    (hb1 : wellFormedClock b.StartTime = true) (hb2 : wellFormedClock b.EndTime = true)
    (h1 : wellFormedClock st = true) (h2 : wellFormedClock en = true)
    (hp : parseClockOrZero b.StartTime < parseClockOrZero b.EndTime) :
    conflictCondition b st en = true ↔
      parseClockOrZero b.StartTime < parseClockOrZero en
        ∧ parseClockOrZero st < parseClockOrZero b.EndTime := by
  rw [conflictCondition_eq b st en hb1 hb2 h1 h2]
  simp only [Bool.or_eq_true, Bool.and_eq_true, decide_eq_true_eq]
  constructor
  · rintro (h | h)
    · exact h
    · omega
  · intro h; exact Or.inl h

theorem overlap_conflictCondition (b : Booking) (st en : String)
    (hb1 : wellFormedClock b.StartTime = true) (hb2 : wellFormedClock b.EndTime = true)
    (h1 : wellFormedClock st = true) (h2 : wellFormedClock en = true)
    (h : conflictCondition b st en = false) :
    ¬ (parseClockOrZero b.StartTime < parseClockOrZero en
        ∧ parseClockOrZero st < parseClockOrZero b.EndTime) := by
  rw [conflictCondition_eq b st en hb1 hb2 h1 h2] at h
  intro hov
  simp [hov.1, hov.2] at h

theorem checkAvailability_false_iff (s : Store) (courtID : Nat) (date : Date)
    (st en : String) :
    checkAvailability s courtID date st en = false ↔
      ∃ b ∈ s.bookings, b.CourtID = courtID ∧ b.Date = date ∧ b.Status = "confirmed"
        ∧ conflictCondition b st en = true := by
  simp only [checkAvailability, conflictingBookings, beq_eq_false_iff_ne, ne_eq,
    List.length_eq_zero, List.filter_eq_nil_iff, not_forall, Classical.not_not]
  constructor
  · rintro ⟨b, hb, h⟩
    simp only [Bool.and_eq_true, beq_iff_eq, decide_eq_true_eq] at h
    exact ⟨b, hb, h.1.1.1, h.1.1.2, h.1.2, h.2⟩
  · rintro ⟨b, hb, h1, h2, h3, h4⟩
    exact ⟨b, hb, by simp [h1, h2, h3, h4]⟩

theorem dateColumn_east (loc : Int) (date : Date) (h : 0 ≤ loc) :
    dateColumn loc date = some date := by
  unfold dateColumn
  rw [if_neg (by omega)]

theorem CreateBooking_ok (s : Store) (userID : Nat) (req : CreateBookingRequest) (b : Booking)
    (h : (CreateBooking s userID req).1 = .ok b) :
    ∃ court date day, findActiveCourt s req.CourtID = some court
      ∧ parseDate req.Date = some date
      ∧ checkAvailability s req.CourtID date req.StartTime req.EndTime = true
      ∧ dateColumn s.loc date = some day
      ∧ b = newBooking s userID req court day
      ∧ (CreateBooking s userID req).2 = { s with bookings := s.bookings ++ [b] } := by
  cases hcourt : findActiveCourt s req.CourtID with
  | none => simp [CreateBooking, hcourt] at h
  | some court =>
    cases hdate : parseDate req.Date with
    | none => simp [CreateBooking, hcourt, hdate] at h
    | some date =>
      cases hav : checkAvailability s req.CourtID date req.StartTime req.EndTime with
      | false => simp [CreateBooking, hcourt, hdate, hav] at h
      | true =>
        cases hday : dateColumn s.loc date with
        | none => simp [CreateBooking, hcourt, hdate, hav, hday] at h
        | some day =>
          simp only [CreateBooking, hcourt, hdate, hav, hday, Bool.not_true, Bool.false_eq_true,
            if_false, Except.ok.injEq] at h
          refine ⟨court, date, day, rfl, rfl, hav, hday, h.symm, ?_⟩
          simp [CreateBooking, hcourt, hdate, hav, hday, h]

theorem checkAvailability_append_pending (s : Store) (b : Booking) (hb : b.Status = "pending")
    (courtID : Nat) (date : Date) (st en : String) :
    checkAvailability { s with bookings := s.bookings ++ [b] } courtID date st en
      = checkAvailability s courtID date st en := by
  simp [checkAvailability, conflictingBookings, List.filter_append, hb]

/-- Counterexample to C1: on a store without bookings two successive
`CreateBooking` calls for the same court, date and interval 10:00-11:00 both
succeed; the invariant holds before each call and fails after the second. -/
theorem CreateBooking_twice_same_slot :
    (sampleStore mondayHours []).noDoubleBooking
      ∧ (CreateBooking (sampleStore mondayHours []) 7 (sampleRequest "10:00" "11:00")).1.isOk = true
      ∧ (CreateBooking (sampleStore mondayHours []) 7
          (sampleRequest "10:00" "11:00")).2.noDoubleBooking
      ∧ (CreateBooking
          (CreateBooking (sampleStore mondayHours []) 7 (sampleRequest "10:00" "11:00")).2 8
          (sampleRequest "10:00" "11:00")).1.isOk = true
      ∧ ¬ (CreateBooking
          (CreateBooking (sampleStore mondayHours []) 7 (sampleRequest "10:00" "11:00")).2 8
          (sampleRequest "10:00" "11:00")).2.noDoubleBooking := by
  decide

/-- C1, amended: a successful `CreateBooking` appends one booking with
status pending.  With zero-padded `HH:MM` times in the store and in the
request and a server whose local time is UTC or ahead of it, if no confirmed
booking overlaps another booking of its court and date with status pending or
confirmed before the call, then none does after it.  And pending bookings may
overlap one another: after a successful call a second call with the same
request, by whatever user, succeeds as well and stores the same row, the
primary key and the user apart. -/
theorem CreateBooking_keeps_noConfirmedOverlap (s : Store) (userID : Nat)
    (req : CreateBookingRequest) (b : Booking)
    (hok : (CreateBooking s userID req).1 = .ok b) :
    (s.clockTimes →
        wellFormedClock req.StartTime = true ∧ wellFormedClock req.EndTime = true →
        s.noConfirmedOverlap → 0 ≤ s.loc →
        (CreateBooking s userID req).2.noConfirmedOverlap)
      ∧ b.Status = "pending"
      ∧ (CreateBooking s userID req).2.bookings = s.bookings ++ [b]
      ∧ ∀ other : Nat, ∃ second,
          CreateBooking (CreateBooking s userID req).2 other req
              = (.ok second,
                  { (CreateBooking s userID req).2 with
                    bookings := s.bookings ++ [b, second] })
            ∧ second = { b with ID := second.ID, UserID := other } := by
  obtain ⟨court, date, day, hcourt, hparse, hav, hday, hb, hs⟩ :=
    CreateBooking_ok s userID req b hok
  have hstatus : b.Status = "pending" := by rw [hb]; rfl
  refine ⟨?_, hstatus, by rw [hs], ?_⟩
  · intro hclock hreq hinv hzone
    rw [dateColumn_east s.loc date hzone] at hday
    have hdd : day = date := (Option.some.inj hday).symm
    subst hdd
    rw [hs]
    unfold Store.noConfirmedOverlap
    refine List.pairwise_append.mpr ⟨hinv, List.pairwise_singleton _ _, ?_⟩
    intro a ha x hx hcourt2 hdate _ _ hconf
    rw [List.mem_singleton] at hx
    rw [hx] at hcourt2 hdate hconf ⊢
    have hpend : ¬ b.Status = "confirmed" := by rw [hstatus]; decide
    have haconf : a.Status = "confirmed" := hconf.resolve_right hpend
    have hbc : b.CourtID = req.CourtID := by rw [hb]; rfl
    have hbd : b.Date = day := by rw [hb]; rfl
    have hbs : b.StartTime = req.StartTime := by rw [hb]; rfl
    have hbe : b.EndTime = req.EndTime := by rw [hb]; rfl
    have hnc : conflictCondition a req.StartTime req.EndTime = false := by
      by_contra hc
      have hfalse := (checkAvailability_false_iff s req.CourtID day req.StartTime
        req.EndTime).mpr
          ⟨a, ha, by rw [hcourt2, hbc], by rw [hdate, hbd], haconf, by simpa using hc⟩
      rw [hav] at hfalse
      exact Bool.noConfusion hfalse
    have hno := overlap_conflictCondition a req.StartTime req.EndTime (hclock a ha).1
      (hclock a ha).2 hreq.1 hreq.2 hnc
    simp only [Booking.overlaps, hbs, hbe, Bool.and_eq_false_imp, decide_eq_true_eq,
      decide_eq_false_iff_not]
    intro h1 h2
    exact hno ⟨h1, h2⟩
  · intro other
    rw [hs]
    have hcourt2 : findActiveCourt { s with bookings := s.bookings ++ [b] } req.CourtID
        = some court := hcourt
    have hav2 : checkAvailability { s with bookings := s.bookings ++ [b] } req.CourtID date
        req.StartTime req.EndTime = true := by
      rw [checkAvailability_append_pending s b hstatus]
      exact hav
    have hday2 : dateColumn ({ s with bookings := s.bookings ++ [b] } : Store).loc date
        = some day := hday
    refine ⟨newBooking { s with bookings := s.bookings ++ [b] } other req court day, ?_, ?_⟩
    · simp [CreateBooking, hcourt2, hparse, hav2, hday2]
    · rw [hb]
      rfl

/-- Witness of C1: a store with a confirmed booking 09:00-10:00 and a pending
booking 10:00-11:00, and a request for 10:30-11:30. -/
theorem CreateBooking_keeps_noConfirmedOverlap_witness :
    (CreateBooking
        (sampleStore mondayHours [sampleBooking 1 7 "09:00" "10:00" "confirmed",
          sampleBooking 2 8 "10:00" "11:00" "pending"]) 9
        (sampleRequest "10:30" "11:30")).2.noConfirmedOverlap
      ∧ (newBooking
        (sampleStore mondayHours [sampleBooking 1 7 "09:00" "10:00" "confirmed",
          sampleBooking 2 8 "10:00" "11:00" "pending"]) 9
        (sampleRequest "10:30" "11:30") sampleCourt sampleDate).Status = "pending"
      ∧ (CreateBooking
        (sampleStore mondayHours [sampleBooking 1 7 "09:00" "10:00" "confirmed",
          sampleBooking 2 8 "10:00" "11:00" "pending"]) 9
        (sampleRequest "10:30" "11:30")).2.bookings
        = (sampleStore mondayHours [sampleBooking 1 7 "09:00" "10:00" "confirmed",
          sampleBooking 2 8 "10:00" "11:00" "pending"]).bookings
            ++ [newBooking
              (sampleStore mondayHours [sampleBooking 1 7 "09:00" "10:00" "confirmed",
                sampleBooking 2 8 "10:00" "11:00" "pending"]) 9
              (sampleRequest "10:30" "11:30") sampleCourt sampleDate]
      ∧ (CreateBooking
          (CreateBooking
            (sampleStore mondayHours [sampleBooking 1 7 "09:00" "10:00" "confirmed",
              sampleBooking 2 8 "10:00" "11:00" "pending"]) 9
            (sampleRequest "10:30" "11:30")).2 4 (sampleRequest "10:30" "11:30")).1.isOk
          = true :=
  have h := CreateBooking_keeps_noConfirmedOverlap
    (sampleStore mondayHours [sampleBooking 1 7 "09:00" "10:00" "confirmed",
      sampleBooking 2 8 "10:00" "11:00" "pending"]) 9 (sampleRequest "10:30" "11:30")
    (newBooking
      (sampleStore mondayHours [sampleBooking 1 7 "09:00" "10:00" "confirmed",
        sampleBooking 2 8 "10:00" "11:00" "pending"]) 9
      (sampleRequest "10:30" "11:30") sampleCourt sampleDate) (by rfl)
  ⟨h.1 (by decide) (by decide) (by decide) (by decide), h.2.1, h.2.2.1,
    (h.2.2.2 4).elim (fun _ hsecond => by rw [hsecond.1]; rfl)⟩

/-- Why C1 asks for a zone that is not behind UTC.  On a server three hours
behind UTC the booking requested for Monday 18 March 2024,
10:00-11:00, is stored under Sunday 17 March.  Once it is confirmed, a second
request for the same court, date and interval passes `checkAvailability`,
which looks at the rows of 18 March, and is stored next to it: a confirmed
and a pending booking of one court and stored date overlap. -/
theorem CreateBooking_west_of_UTC :
    (CreateBooking (westStore []) 7 (sampleRequest "10:00" "11:00")).1.isOk = true
      ∧ (CreateBooking (westStore []) 7 (sampleRequest "10:00" "11:00")).2.bookings.map
          (fun b => (b.ID, b.Date, b.Status)) = [(1, sampleSunday, "pending")]
      ∧ (westStore [{ sampleBooking 1 7 "10:00" "11:00" "confirmed" with
            Date := sampleSunday }]).noConfirmedOverlap
      ∧ (CreateBooking
          (westStore [{ sampleBooking 1 7 "10:00" "11:00" "confirmed" with
            Date := sampleSunday }]) 8 (sampleRequest "10:00" "11:00")).1.isOk = true
      ∧ (CreateBooking
          (westStore [{ sampleBooking 1 7 "10:00" "11:00" "confirmed" with
            Date := sampleSunday }]) 8 (sampleRequest "10:00" "11:00")).2.bookings.map
          (fun b => (b.ID, b.Date, b.Status))
          = [(1, sampleSunday, "confirmed"), (2, sampleSunday, "pending")]
      ∧ ¬ (CreateBooking
          (westStore [{ sampleBooking 1 7 "10:00" "11:00" "confirmed" with
            Date := sampleSunday }]) 8 (sampleRequest "10:00" "11:00")).2.noConfirmedOverlap := by
  decide

/-- Counterexample to C2: the court is active, the date is well formed and a
stored pending booking 10:00-11:00 of that court and date overlaps the
requested 10:00-11:00, yet `CreateBooking` does not reject the request. -/
theorem CreateBooking_accepts_over_pending :
    findActiveCourt (sampleStore mondayHours [sampleBooking 1 7 "10:00" "11:00" "pending"]) 1
        = some sampleCourt
      ∧ parseDate (sampleRequest "10:00" "11:00").Date = some sampleDate
      ∧ (∃ b ∈ (sampleStore mondayHours [sampleBooking 1 7 "10:00" "11:00" "pending"]).bookings,
          b.CourtID = 1 ∧ b.Date = sampleDate ∧ b.blocking = true
            ∧ parseClockOrZero b.StartTime < parseClockOrZero "11:00"
            ∧ parseClockOrZero "10:00" < parseClockOrZero b.EndTime)
      ∧ (CreateBooking (sampleStore mondayHours [sampleBooking 1 7 "10:00" "11:00" "pending"]) 8
          (sampleRequest "10:00" "11:00")).1 ≠ .error "time slot not available"
      ∧ (CreateBooking (sampleStore mondayHours [sampleBooking 1 7 "10:00" "11:00" "pending"]) 8
          (sampleRequest "10:00" "11:00")).1.isOk = true := by
  decide

/-- C2, amended: for an existing active court, a well-formed date and
zero-padded `HH:MM` times (every stored booking starting before it ends),
`CreateBooking` is rejected with "time slot not available" if and only if
some stored booking of the same court and date with status confirmed overlaps
the requested half-open interval; when it is rejected the store is
unchanged. -/
theorem CreateBooking_unavailable_iff (s : Store) (userID : Nat) (req : CreateBookingRequest)
    (court : Court) (date : Date)
    (hcourt : findActiveCourt s req.CourtID = some court)
    (hdate : parseDate req.Date = some date)
    (hreq : wellFormedClock req.StartTime = true ∧ wellFormedClock req.EndTime = true)
    (hclock : s.clockTimes) (hproper : s.properIntervals) :
    ((CreateBooking s userID req).1 = .error "time slot not available" ↔
        ∃ b ∈ s.bookings, b.CourtID = req.CourtID ∧ b.Date = date ∧ b.Status = "confirmed"
          ∧ parseClockOrZero b.StartTime < parseClockOrZero req.EndTime
          ∧ parseClockOrZero req.StartTime < parseClockOrZero b.EndTime)
      ∧ ((CreateBooking s userID req).1 = .error "time slot not available" →
          (CreateBooking s userID req).2 = s) := by
  have key : checkAvailability s req.CourtID date req.StartTime req.EndTime = false ↔
      ∃ b ∈ s.bookings, b.CourtID = req.CourtID ∧ b.Date = date ∧ b.Status = "confirmed"
        ∧ parseClockOrZero b.StartTime < parseClockOrZero req.EndTime
        ∧ parseClockOrZero req.StartTime < parseClockOrZero b.EndTime := by
    rw [checkAvailability_false_iff]
    constructor
    · rintro ⟨b, hb, h1, h2, h3, h4⟩
      exact ⟨b, hb, h1, h2, h3, (conflictCondition_iff_overlap b _ _ (hclock b hb).1
        (hclock b hb).2 hreq.1 hreq.2 (hproper b hb)).mp h4⟩
    · rintro ⟨b, hb, h1, h2, h3, h4⟩
      exact ⟨b, hb, h1, h2, h3, (conflictCondition_iff_overlap b _ _ (hclock b hb).1
        (hclock b hb).2 hreq.1 hreq.2 (hproper b hb)).mpr h4⟩
  cases hav : checkAvailability s req.CourtID date req.StartTime req.EndTime with
  | false =>
    have h1 : CreateBooking s userID req = (.error "time slot not available", s) := by
      simp [CreateBooking, hcourt, hdate, hav]
    rw [h1]
    exact ⟨⟨fun _ => key.mp hav, fun _ => rfl⟩, fun _ => rfl⟩
  | true =>
    have h1 : (CreateBooking s userID req).1 ≠ .error "time slot not available" := by
      cases hday : dateColumn s.loc date with
      | none => simp [CreateBooking, hcourt, hdate, hav, hday]
      | some day => simp [CreateBooking, hcourt, hdate, hav, hday]
    refine ⟨⟨fun h => absurd h h1, fun h => ?_⟩, fun h => absurd h h1⟩
    have := key.mpr h
    rw [hav] at this
    exact Bool.noConfusion this

/-- Witness of C2: a confirmed booking 10:00-11:00 and a request 10:30-11:30. -/
theorem CreateBooking_unavailable_iff_witness :
    ((CreateBooking (sampleStore mondayHours [sampleBooking 1 7 "10:00" "11:00" "confirmed"]) 8
          (sampleRequest "10:30" "11:30")).1 = .error "time slot not available" ↔
        ∃ b ∈ (sampleStore mondayHours [sampleBooking 1 7 "10:00" "11:00" "confirmed"]).bookings,
          b.CourtID = (sampleRequest "10:30" "11:30").CourtID ∧ b.Date = sampleDate
            ∧ b.Status = "confirmed"
            ∧ parseClockOrZero b.StartTime < parseClockOrZero (sampleRequest "10:30" "11:30").EndTime
            ∧ parseClockOrZero (sampleRequest "10:30" "11:30").StartTime
                < parseClockOrZero b.EndTime)
      ∧ ((CreateBooking (sampleStore mondayHours [sampleBooking 1 7 "10:00" "11:00" "confirmed"]) 8
          (sampleRequest "10:30" "11:30")).1 = .error "time slot not available" →
        (CreateBooking (sampleStore mondayHours [sampleBooking 1 7 "10:00" "11:00" "confirmed"]) 8
          (sampleRequest "10:30" "11:30")).2
          = sampleStore mondayHours [sampleBooking 1 7 "10:00" "11:00" "confirmed"]) :=
  CreateBooking_unavailable_iff _ 8 (sampleRequest "10:30" "11:30") sampleCourt sampleDate
    (by decide) (by decide) (by decide) (by decide) (by decide)

theorem grownFrom_refl (s : Store) : s.grownFrom s :=
  ⟨rfl, rfl, [], by simp, by simp⟩

theorem findActiveCourt_grown (s0 s : Store) (h : s0.grownFrom s) (id : Nat) :
    findActiveCourt s id = findActiveCourt s0 id := by
  simp only [findActiveCourt, h.1]

theorem checkAvailability_grown (s0 s : Store) (h : s0.grownFrom s) (courtID : Nat)
    (date : Date) (st en : String) :
    checkAvailability s courtID date st en = checkAvailability s0 courtID date st en := by
  obtain ⟨_, _, extra, he, hp⟩ := h
  have hnil : extra.filter (fun b =>
      (b.CourtID == courtID && b.Date == date && b.Status == "confirmed")
        && conflictCondition b st en) = [] := by
    rw [List.filter_eq_nil_iff]
    intro b hb
    simp [hp b hb]
  simp only [checkAvailability, conflictingBookings, he, List.filter_append, hnil,
    List.append_nil]

theorem grownFrom_insert (s0 s : Store) (h : s0.grownFrom s) (b : Booking)
    (hb : b.Status = "pending") :
    s0.grownFrom { s with bookings := s.bookings ++ [b] } := by
  obtain ⟨hc, hl, extra, he, hp⟩ := h
  refine ⟨hc, hl, extra ++ [b], by simp [he], ?_⟩
  intro x hx
  rcases List.mem_append.mp hx with hx | hx
  · exact hp x hx
  · rw [List.mem_singleton.mp hx]; exact hb

theorem step_consistent (s0 s : Store) (h : s0.grownFrom s) (userID : Nat)
    (req : CreateBookingRequest) (c : Call) (hc : c.consistent s0 userID req) :
    s0.grownFrom (c.step s).2 ∧ (c.step s).1.consistent s0 userID req := by
  cases c with
  | start u r =>
    obtain ⟨rfl, rfl⟩ := hc
    simp only [Call.step, findActiveCourt_grown s0 s h]
    cases hcourt : findActiveCourt s0 r.CourtID with
    | none =>
      refine ⟨h, ?_⟩
      simp [Call.consistent, CreateBooking, hcourt, sameOutcome]
    | some court =>
      cases hdate : parseDate r.Date with
      | none =>
        refine ⟨h, ?_⟩
        simp [Call.consistent, CreateBooking, hcourt, hdate, sameOutcome]
      | some date => exact ⟨h, rfl, rfl, hcourt, hdate⟩
  | haveCourt u r court date =>
    obtain ⟨rfl, rfl, hcourt, hdate⟩ := hc
    simp only [Call.step, checkAvailability_grown s0 s h]
    cases hav : checkAvailability s0 r.CourtID date r.StartTime r.EndTime with
    | false =>
      refine ⟨h, ?_⟩
      simp [Call.consistent, CreateBooking, hcourt, hdate, hav, sameOutcome]
    | true => exact ⟨h, rfl, rfl, hcourt, hdate, hav⟩
  | checked u r court date =>
    obtain ⟨rfl, rfl, hcourt, hdate, hav⟩ := hc
    simp only [Call.step]
    cases hday : dateColumn s.loc date with
    | none =>
      have hday0 : dateColumn s0.loc date = none := by rw [← h.2.1]; exact hday
      refine ⟨h, ?_⟩
      simp [Call.consistent, CreateBooking, hcourt, hdate, hav, hday0, sameOutcome]
    | some day =>
      have hday0 : dateColumn s0.loc date = some day := by rw [← h.2.1]; exact hday
      dsimp only
      refine ⟨grownFrom_insert s0 s h _ rfl, ?_⟩
      simp only [Call.consistent, CreateBooking, hcourt, hdate, hav, hday0, Bool.not_true,
        Bool.false_eq_true, if_false, sameOutcome]
      rfl
  | done result => exact ⟨h, hc⟩

theorem step_stored (s : Store) (c : Call) :
    ((c.step s).2 = s ∧ (c.step s).1.stored = c.stored)
      ∨ ∃ b, (c.step s).2 = { s with bookings := s.bookings ++ [b] }
          ∧ c.stored = none ∧ (c.step s).1.stored = some b := by
  cases c with
  | start u r =>
    refine Or.inl ?_
    simp only [Call.step]
    cases findActiveCourt s r.CourtID with
    | none => exact ⟨rfl, rfl⟩
    | some court =>
      cases parseDate r.Date with
      | none => exact ⟨rfl, rfl⟩
      | some date => exact ⟨rfl, rfl⟩
  | haveCourt u r court date =>
    refine Or.inl ?_
    simp only [Call.step]
    split_ifs
    · exact ⟨rfl, rfl⟩
    · exact ⟨rfl, rfl⟩
  | checked u r court date =>
    simp only [Call.step]
    cases dateColumn s.loc date with
    | none => exact Or.inl ⟨rfl, rfl⟩
    | some day => exact Or.inr ⟨_, rfl, rfl, rfl⟩
  | done result => exact Or.inl ⟨rfl, rfl⟩

theorem filterMap_set_same {α β : Type} (f : α → Option β) (l : List α) (c c2 : α) :
    ∀ i : Nat, l[i]? = some c → f c2 = f c → (l.set i c2).filterMap f = l.filterMap f := by
  induction l with
  | nil => intro i hc; simp at hc
  | cons x xs ih =>
    intro i hc hf
    cases i with
    | zero =>
      simp only [List.getElem?_cons_zero, Option.some.injEq] at hc
      subst hc
      simp [List.filterMap_cons, hf]
    | succ j =>
      simp only [List.getElem?_cons_succ] at hc
      simp [List.filterMap_cons, ih j hc hf]

theorem filterMap_set_new {α β : Type} (f : α → Option β) (l : List α) (c c2 : α) (b : β)
    (hnone : f c = none) (hsome : f c2 = some b) :
    ∀ i : Nat, l[i]? = some c → ((l.set i c2).filterMap f).Perm (l.filterMap f ++ [b]) := by
  induction l with
  | nil => intro i hc; simp at hc
  | cons x xs ih =>
    intro i hc
    cases i with
    | zero =>
      simp only [List.getElem?_cons_zero, Option.some.injEq] at hc
      subst hc
      simp only [List.set_cons_zero, List.filterMap_cons, hsome, hnone]
      exact (List.perm_append_singleton b _).symm
    | succ j =>
      simp only [List.getElem?_cons_succ] at hc
      simp only [List.set_cons_succ, List.filterMap_cons]
      cases f x with
      | none => exact ih j hc
      | some y => exact (ih j hc).cons y

theorem advance_consistent (s0 : Store) (reqs : List (Nat × CreateBookingRequest))
    (r : Running) (hr : r.consistent s0 reqs) (i : Nat) :
    (r.advance i).consistent s0 reqs := by
  obtain ⟨hgrown, ⟨extra, hstore, hperm⟩, hlen, hcalls⟩ := hr
  unfold Running.advance
  cases hi : r.calls[i]? with
  | none => exact ⟨hgrown, ⟨extra, hstore, hperm⟩, hlen, hcalls⟩
  | some c =>
    have hlt : i < r.calls.length := by
      rcases Nat.lt_or_ge i r.calls.length with h | h
      · exact h
      · rw [List.getElem?_eq_none h] at hi; cases hi
    have hbound : i < reqs.length := hlen ▸ hlt
    have hreq : reqs[i]? = some reqs[i] := List.getElem?_eq_getElem hbound
    have hstep := step_consistent s0 r.store hgrown _ _ c (hcalls i _ _ c hreq hi)
    refine ⟨hstep.1, ?_, by simp [hlen], ?_⟩
    · rcases step_stored r.store c with ⟨h1, h2⟩ | ⟨b, h1, h2, h3⟩
      · refine ⟨extra, ?_, ?_⟩
        · show (c.step r.store).2 = _
          rw [h1, hstore]
        · show extra.Perm ((r.calls.set i (c.step r.store).1).filterMap Call.stored)
          rw [filterMap_set_same Call.stored r.calls c _ i hi h2]
          exact hperm
      · refine ⟨extra ++ [b], ?_, ?_⟩
        · show (c.step r.store).2 = _
          rw [h1, hstore]
          simp
        · show (extra ++ [b]).Perm ((r.calls.set i (c.step r.store).1).filterMap Call.stored)
          exact ((List.Perm.append_right [b] hperm).trans
            (filterMap_set_new Call.stored r.calls c _ b h2 h3 i hi).symm)
    · intro j userID req c2 hj hc2
      simp only [List.getElem?_set, hlt, if_true] at hc2
      by_cases hij : i = j
      · subst hij
        simp only [if_true, Option.some.injEq] at hc2
        rw [← hc2]
        exact (step_consistent s0 r.store hgrown userID req c (hcalls i userID req c hj hi)).2
      · simp only [hij, if_false] at hc2
        exact hcalls j userID req c2 hj hc2

theorem run_consistent (s0 : Store) (reqs : List (Nat × CreateBookingRequest))
    (schedule : List Nat) :
    ∀ r : Running, r.consistent s0 reqs → (r.run schedule).consistent s0 reqs := by
  induction schedule with
  | nil => intro r hr; exact hr
  | cons i rest ih =>
    intro r hr
    exact ih (r.advance i) (advance_consistent s0 reqs r hr i)

theorem begin_consistent (s0 : Store) (reqs : List (Nat × CreateBookingRequest)) :
    (Running.begin s0 reqs).consistent s0 reqs := by
  refine ⟨grownFrom_refl s0, ⟨[], by simp [Running.begin], ?_⟩, by simp [Running.begin], ?_⟩
  · have hnone : (reqs.map (fun p => Call.start p.1 p.2)).filterMap Call.stored = [] := by
      rw [List.filterMap_eq_nil_iff]
      intro c hc
      obtain ⟨p, _, rfl⟩ := List.mem_map.mp hc
      rfl
    simp only [Running.begin, hnone]
    exact List.Perm.refl _
  · intro i userID req c hreq hc
    simp only [Running.begin, List.getElem?_map, hreq, Option.map_some', Option.some.injEq] at hc
    rw [← hc]
    exact ⟨rfl, rfl⟩

theorem step_phase (s : Store) (c : Call) :
    min 3 (c.phase + 1) ≤ (c.step s).1.phase := by
  cases c with
  | start u r =>
    simp only [Call.step]
    cases findActiveCourt s r.CourtID with
    | none => simp [Call.phase]
    | some court =>
      cases parseDate r.Date with
      | none => simp [Call.phase]
      | some date => simp [Call.phase]
  | haveCourt u r court date =>
    simp only [Call.step]
    split_ifs <;> simp [Call.phase]
  | checked u r court date =>
    simp only [Call.step]
    cases dateColumn s.loc date with
    | none => simp [Call.phase]
    | some day => simp [Call.phase]
  | done result => simp [Call.step, Call.phase]

theorem advance_phase (r : Running) (i j : Nat) (c : Call) (hc : r.calls[i]? = some c) :
    ∃ c', (r.advance j).calls[i]? = some c'
      ∧ min 3 (c.phase + (if j = i then 1 else 0)) ≤ c'.phase := by
  unfold Running.advance
  cases hj : r.calls[j]? with
  | none =>
    refine ⟨c, hc, ?_⟩
    have hne : j ≠ i := by
      intro h; rw [h, hc] at hj; cases hj
    simp [hne]
  | some d =>
    by_cases hji : j = i
    · subst hji
      have hd : d = c := by rw [hc] at hj; exact (Option.some.inj hj).symm
      subst hd
      have hlt : j < r.calls.length := by
        rcases Nat.lt_or_ge j r.calls.length with h | h
        · exact h
        · rw [List.getElem?_eq_none h] at hc; cases hc
      refine ⟨(d.step r.store).1, by simp [List.getElem?_set, hlt], ?_⟩
      simpa using step_phase r.store d
    · refine ⟨c, by simp [List.getElem?_set_ne hji, hc], ?_⟩
      simp [hji]

theorem run_phase (i : Nat) (schedule : List Nat) :
    ∀ (r : Running) (c : Call), r.calls[i]? = some c →
      ∃ c', (r.run schedule).calls[i]? = some c'
        ∧ min 3 (c.phase + schedule.count i) ≤ c'.phase := by
  induction schedule with
  | nil => intro r c hc; exact ⟨c, hc, by simp⟩
  | cons j rest ih =>
    intro r c hc
    obtain ⟨c1, h1, hp1⟩ := advance_phase r i j c hc
    obtain ⟨c2, h2, hp2⟩ := ih (r.advance j) c1 h1
    refine ⟨c2, h2, ?_⟩
    have hcount : (j :: rest).count i = rest.count i + (if j = i then 1 else 0) := by
      by_cases h : j = i <;> simp [List.count_cons, h]
    rw [hcount]
    split_ifs at hp1 ⊢ <;> omega

theorem phase_done (c : Call) (h : 3 ≤ c.phase) : ∃ result, c = Call.done result := by
  cases c with
  | done result => exact ⟨result, rfl⟩
  | start u r => simp [Call.phase] at h
  | haveCourt u r court date => simp [Call.phase] at h
  | checked u r court date => simp [Call.phase] at h

theorem run_alone (s : Store) (userID : Nat) (req : CreateBookingRequest) :
    (Running.begin s [(userID, req)]).run [0, 0, 0]
      = { store := (CreateBooking s userID req).2
          calls := [Call.done (CreateBooking s userID req).1] } := by
  simp only [Running.begin, Running.run, List.foldl, Running.advance, List.map,
    List.getElem?_cons_zero, Call.step, CreateBooking, List.set]
  cases findActiveCourt s req.CourtID with
  | none => rfl
  | some court =>
    cases parseDate req.Date with
    | none => rfl
    | some date =>
      simp only [List.getElem?_cons_zero, Call.step, List.set]
      cases checkAvailability s req.CourtID date req.StartTime req.EndTime with
      | false => rfl
      | true =>
        simp only [Bool.not_true, Bool.false_eq_true, if_false, List.getElem?_cons_zero,
          Call.step, List.set]
        cases dateColumn s.loc date with
        | none => rfl
        | some day => rfl

theorem CreateBooking_unavailable_confirmed (s : Store) (userID : Nat)
    (req : CreateBookingRequest)
    (h : (CreateBooking s userID req).1 = .error "time slot not available") :
    ∃ b ∈ s.bookings, b.CourtID = req.CourtID ∧ parseDate req.Date = some b.Date
      ∧ b.Status = "confirmed" ∧ conflictCondition b req.StartTime req.EndTime = true := by
  cases hcourt : findActiveCourt s req.CourtID with
  | none => simp [CreateBooking, hcourt] at h
  | some court =>
    cases hdate : parseDate req.Date with
    | none => simp [CreateBooking, hcourt, hdate] at h
    | some date =>
      cases hav : checkAvailability s req.CourtID date req.StartTime req.EndTime with
      | false =>
        obtain ⟨b, hb, h1, h2, h3, h4⟩ :=
          (checkAvailability_false_iff s req.CourtID date req.StartTime req.EndTime).mp hav
        exact ⟨b, hb, h1, by rw [h2], h3, h4⟩
      | true =>
        cases hday : dateColumn s.loc date with
        | none => simp [CreateBooking, hcourt, hdate, hav, hday] at h
        | some day => simp [CreateBooking, hcourt, hdate, hav, hday] at h

theorem sameOutcome_pending (s0 : Store) (userID : Nat) (req : CreateBookingRequest)
    (b : Booking) (h : sameOutcome (.ok b) (CreateBooking s0 userID req).1) :
    b.Status = "pending" := by
  cases hres : (CreateBooking s0 userID req).1 with
  | error e => rw [hres] at h; exact h.elim
  | ok b0 =>
    rw [hres] at h
    obtain ⟨court, date, day, _, _, _, _, hb0, _⟩ := CreateBooking_ok s0 userID req b0 hres
    have h2 : b = { b0 with ID := b.ID } := h
    rw [h2, hb0]
    rfl

/-- Counterexample to C3: two calls for the same court, date and interval
10:00-11:00 run side by side, each statement of the one followed by the same
statement of the other; both calls return a booking and two overlapping
bookings are stored. -/
theorem CreateBooking_race_both_succeed :
    (((Running.begin (sampleStore mondayHours [])
        [(7, sampleRequest "10:00" "11:00"), (8, sampleRequest "10:00" "11:00")]).run
          [0, 1, 0, 1, 0, 1]).calls.map Call.succeeded) = [true, true]
      ∧ ¬ ((Running.begin (sampleStore mondayHours [])
        [(7, sampleRequest "10:00" "11:00"), (8, sampleRequest "10:00" "11:00")]).run
          [0, 1, 0, 1, 0, 1]).store.noDoubleBooking := by
  decide

/-- C3, amended: `CreateBooking` opens no transaction and its availability
check counts confirmed bookings only.  However the statements of
`CreateBooking` calls that run side by side are interleaved, a call that has
run its three statements has returned, and it has returned what it returns
when run alone on the store the calls began on, the primary key of the new
booking apart; in particular it is rejected with "time slot not available"
exactly when it is so rejected there, and then a confirmed booking of the
court and date stored before the calls began meets the condition of
`checkAvailability`.  The booking a call returns is stored with status
pending, and the store after the statements is the store the calls began on
with exactly the bookings returned so far added to its bookings table; so the
calls do not exclude one another. -/
theorem CreateBooking_calls_independent (s0 : Store)
    (reqs : List (Nat × CreateBookingRequest)) (schedule : List Nat) (i userID : Nat)
    (req : CreateBookingRequest) (hreq : reqs[i]? = some (userID, req))
    (hsched : 3 ≤ schedule.count i) :
    ∃ result, ((Running.begin s0 reqs).run schedule).calls[i]? = some (Call.done result)
      ∧ sameOutcome result (CreateBooking s0 userID req).1
      ∧ (result = .error "time slot not available"
          ↔ (CreateBooking s0 userID req).1 = .error "time slot not available")
      ∧ (result = .error "time slot not available" →
          ∃ b ∈ s0.bookings, b.CourtID = req.CourtID ∧ parseDate req.Date = some b.Date
            ∧ b.Status = "confirmed" ∧ conflictCondition b req.StartTime req.EndTime = true)
      ∧ (∀ b, result = .ok b →
          b ∈ ((Running.begin s0 reqs).run schedule).store.bookings ∧ b.Status = "pending")
      ∧ ∃ extra,
          ((Running.begin s0 reqs).run schedule).store
              = { s0 with bookings := s0.bookings ++ extra }
            ∧ extra.Perm
                (((Running.begin s0 reqs).run schedule).calls.filterMap Call.stored) := by
  have hstart : (Running.begin s0 reqs).calls[i]? = some (Call.start userID req) := by
    simp [Running.begin, hreq]
  obtain ⟨c, hc, hphase⟩ := run_phase i schedule _ _ hstart
  have h0 : (Call.start userID req).phase = 0 := rfl
  rw [h0] at hphase
  obtain ⟨result, rfl⟩ := phase_done c (by omega)
  obtain ⟨_, ⟨extra, hstore, hperm⟩, _, hcalls⟩ :=
    run_consistent s0 reqs schedule _ (begin_consistent s0 reqs)
  have hsame : sameOutcome result (CreateBooking s0 userID req).1 := hcalls i userID req _ hreq hc
  have hiff : result = .error "time slot not available"
      ↔ (CreateBooking s0 userID req).1 = .error "time slot not available" := by
    cases result with
    | error e =>
      cases hres : (CreateBooking s0 userID req).1 with
      | error e0 =>
        rw [hres] at hsame
        have he : e = e0 := hsame
        rw [he]
      | ok b0 => rw [hres] at hsame; exact hsame.elim
    | ok b =>
      cases hres : (CreateBooking s0 userID req).1 with
      | error e0 => rw [hres] at hsame; exact hsame.elim
      | ok b0 => simp
  refine ⟨result, hc, hsame, hiff,
    fun h => CreateBooking_unavailable_confirmed s0 userID req (hiff.mp h), ?_,
    extra, hstore, hperm⟩
  · intro b hb
    subst hb
    refine ⟨?_, sameOutcome_pending s0 userID req b hsame⟩
    have hmem : b ∈ ((Running.begin s0 reqs).run schedule).calls.filterMap Call.stored := by
      rw [List.mem_filterMap]
      exact ⟨Call.done (.ok b), List.getElem?_mem hc, rfl⟩
    rw [hstore]
    exact List.mem_append_right _ (hperm.mem_iff.mpr hmem)

/-- Witness of C3: the second of two calls for 10:00-11:00 under the
alternating schedule. -/
theorem CreateBooking_calls_independent_witness :
    ∃ result, ((Running.begin (sampleStore mondayHours [])
        [(7, sampleRequest "10:00" "11:00"), (8, sampleRequest "10:00" "11:00")]).run
          [0, 1, 0, 1, 0, 1]).calls[1]? = some (Call.done result)
      ∧ sameOutcome result
          (CreateBooking (sampleStore mondayHours []) 8 (sampleRequest "10:00" "11:00")).1
      ∧ (result = .error "time slot not available"
          ↔ (CreateBooking (sampleStore mondayHours []) 8 (sampleRequest "10:00" "11:00")).1
              = .error "time slot not available")
      ∧ (result = .error "time slot not available" →
          ∃ b ∈ (sampleStore mondayHours []).bookings,
            b.CourtID = (sampleRequest "10:00" "11:00").CourtID
              ∧ parseDate (sampleRequest "10:00" "11:00").Date = some b.Date
              ∧ b.Status = "confirmed"
              ∧ conflictCondition b (sampleRequest "10:00" "11:00").StartTime
                  (sampleRequest "10:00" "11:00").EndTime = true)
      ∧ (∀ b, result = .ok b →
          b ∈ ((Running.begin (sampleStore mondayHours [])
              [(7, sampleRequest "10:00" "11:00"), (8, sampleRequest "10:00" "11:00")]).run
                [0, 1, 0, 1, 0, 1]).store.bookings ∧ b.Status = "pending")
      ∧ ∃ extra,
          ((Running.begin (sampleStore mondayHours [])
              [(7, sampleRequest "10:00" "11:00"), (8, sampleRequest "10:00" "11:00")]).run
                [0, 1, 0, 1, 0, 1]).store
              = { sampleStore mondayHours [] with
                  bookings := (sampleStore mondayHours []).bookings ++ extra }
            ∧ extra.Perm
                (((Running.begin (sampleStore mondayHours [])
                  [(7, sampleRequest "10:00" "11:00"), (8, sampleRequest "10:00" "11:00")]).run
                    [0, 1, 0, 1, 0, 1]).calls.filterMap Call.stored) :=
  CreateBooking_calls_independent (sampleStore mondayHours [])
    [(7, sampleRequest "10:00" "11:00"), (8, sampleRequest "10:00" "11:00")]
    [0, 1, 0, 1, 0, 1] 1 8 (sampleRequest "10:00" "11:00") (by decide) (by decide)

/-- Counterexample to C11: the sample court exists and has weekly hours for
Monday only; for Tuesday 19 March 2024 `GetAvailability` returns an error,
not the empty list. -/
theorem GetAvailability_no_hours_is_error :
    GetCourtByID (sampleStore mondayHours []) 1 = .ok sampleCourt
      ∧ (sampleStore mondayHours []).businessHours.find?
          (fun bh => bh.CourtID == 1 && bh.DayOfWeek == weekday sampleTuesday) = none
      ∧ (sampleStore mondayHours []).specialHours = []
      ∧ GetAvailability (sampleStore mondayHours []) 1 sampleTuesday
          = .error "no business hours for this day"
      ∧ GetAvailability (sampleStore mondayHours []) 1 sampleTuesday ≠ .ok [] := by
  decide

/-- C11, amended: for an existing court that has no weekly business-hours
entry for the weekday of the requested date, `GetAvailability` returns the
error "no business hours for this day" and no slot list, whatever Special
Hours records exist. -/
theorem GetAvailability_no_hours (s : Store) (courtID : Nat) (date : Date) (court : Court)
    (hc : GetCourtByID s courtID = .ok court)
    (hb : s.businessHours.find?
        (fun bh => bh.CourtID == courtID && bh.DayOfWeek == weekday date) = none) :
    GetAvailability s courtID date = .error "no business hours for this day" := by
  simp only [GetAvailability, hc, hb]

/-- Witness of C11: the sample court on a Tuesday. -/
theorem GetAvailability_no_hours_witness :
    GetAvailability (sampleStore mondayHours []) 1 sampleTuesday
      = .error "no business hours for this day" :=
  GetAvailability_no_hours _ 1 sampleTuesday sampleCourt (by decide) (by decide)

theorem generateTimeSlots_increasing (a b : Nat) (ha : a < 1440) (hb : b < 1440) (r : Rat) :
    (generateTimeSlots (formatClock a) (formatClock b) r).Pairwise
      (fun x y => parseClockOrZero x.StartTime < parseClockOrZero y.StartTime) := by
  rcases Nat.lt_or_ge b a with hlt | hge
  · have h0 : generateTimeSlots (formatClock a) (formatClock b) r = [] := by
      unfold generateTimeSlots
      simp only [parseClockOrZero_formatClock a ha, parseClockOrZero_formatClock b hb]
      have : b - a = 0 := by omega
      rw [this]
      rfl
    rw [h0]
    exact List.Pairwise.nil
  · rw [generateTimeSlots_hourly a b hb hge r, List.pairwise_map]
    have hrange : (List.range ((b - a) / 60)).Pairwise (fun i j => i < j) :=
      List.pairwise_lt_range _
    refine (List.Pairwise.and_mem.mp hrange).imp ?_
    intro i j hij
    obtain ⟨hi, hj, hlt⟩ := hij
    rw [List.mem_range] at hi hj
    have hi2 : a + 60 * i < 1440 := by omega
    have hj2 : a + 60 * j < 1440 := by omega
    simp only [parseClockOrZero_formatClock _ hi2, parseClockOrZero_formatClock _ hj2]
    omega

/-- C12: for every slot list and booking list the output of
`filterAvailableSlots` is a subsequence of the input slots, in the same
relative order; on the slots generated for a window given by zero-padded
`HH:MM` texts its output has strictly increasing start times. -/
theorem filterAvailableSlots_order (slots : List TimeSlot) (bookings : List Booking)
    (a b : Nat) (ha : a < 1440) (hb : b < 1440) (r : Rat) :
    (filterAvailableSlots slots bookings).Sublist slots
      ∧ (filterAvailableSlots (generateTimeSlots (formatClock a) (formatClock b) r)
          bookings).Pairwise
            (fun x y => parseClockOrZero x.StartTime < parseClockOrZero y.StartTime) :=
  ⟨List.filter_sublist _,
   (generateTimeSlots_increasing a b ha hb r).sublist (List.filter_sublist _)⟩

/-- Witness of C12: the window 09:00-12:00 with a booking 10:00-11:00. -/
theorem filterAvailableSlots_order_witness :
    (filterAvailableSlots [⟨"09:00", "10:00", true, 15⟩, ⟨"10:00", "11:00", true, 15⟩]
        [sampleBooking 1 7 "10:00" "11:00" "confirmed"]).Sublist
          [⟨"09:00", "10:00", true, 15⟩, ⟨"10:00", "11:00", true, 15⟩]
      ∧ (filterAvailableSlots (generateTimeSlots "09:00" "12:00" 15)
          [sampleBooking 1 7 "10:00" "11:00" "confirmed"]).Pairwise
            (fun x y => parseClockOrZero x.StartTime < parseClockOrZero y.StartTime) :=
  filterAvailableSlots_order _ _ 540 720 (by decide) (by decide) 15

/-- C13 fails on the code: a request for the sample court from 11:00 to
10:00 passes every check of `CreateBooking`, which stores a pending booking
with the negative total price -15; a request from 10:00 to 10:00 is stored
with total price 0. -/
theorem CreateBooking_accepts_reversed_interval :
    (CreateBooking (sampleStore mondayHours []) 7 (sampleRequest "11:00" "10:00")).1
        = .ok (newBooking (sampleStore mondayHours []) 7 (sampleRequest "11:00" "10:00")
            sampleCourt sampleDate)
      ∧ (CreateBooking (sampleStore mondayHours []) 7 (sampleRequest "11:00" "10:00")).2.bookings
        = [newBooking (sampleStore mondayHours []) 7 (sampleRequest "11:00" "10:00")
            sampleCourt sampleDate]
      ∧ (newBooking (sampleStore mondayHours []) 7 (sampleRequest "11:00" "10:00")
            sampleCourt sampleDate).TotalPrice = -15
      ∧ (CreateBooking (sampleStore mondayHours []) 7 (sampleRequest "10:00" "10:00")).1.isOk
        = true
      ∧ (newBooking (sampleStore mondayHours []) 7 (sampleRequest "10:00" "10:00")
            sampleCourt sampleDate).TotalPrice = 0 := by
  have h1 : parseClockOrZero "11:00" = 660 := by decide
  have h2 : parseClockOrZero "10:00" = 600 := by decide
  have f1 : float64 (-1) = -1 := float64_of_int (-1) (-1) (by norm_num) (by norm_num)
  have f15 : float64 15 = 15 := float64_of_int 15 15 (by norm_num) (by norm_num)
  have fm15 : float64 (-15) = -15 := float64_of_int (-15) (-15) (by norm_num) (by norm_num)
  have dm15 : decimalColumn (-15) = -15 :=
    decimalColumn_of_int (-15) (-15) (by norm_num) (by norm_num)
  have d0 : decimalColumn 0 = 0 := decimalColumn_of_int 0 0 (by norm_num) (by norm_num)
  refine ⟨rfl, rfl, ?_, by decide, ?_⟩
  · simp only [newBooking, calculateHours, sampleRequest, sampleCourt, h1, h2]
    norm_num [float64_zero, f1, f15, fm15, dm15]
  · simp only [newBooking, calculateHours, sampleRequest, sampleCourt, h2]
    norm_num [float64_zero, d0]

theorem find?_eq_none_of_forall {α : Type} (p : α → Bool) (l : List α)
    (h : ∀ x ∈ l, p x = false) : l.find? p = none := by
  rw [List.find?_eq_none]
  intro x hx
  simp [h x hx]

theorem eq_of_key_eq {α : Type} (key : α → Nat) (l : List α)
    (hkeys : l.Pairwise (fun a b => key a ≠ key b)) (x y : α) (hx : x ∈ l) (hy : y ∈ l)
    (h : key x = key y) : x = y := by
  induction l with
  | nil => cases hx
  | cons z rest ih =>
    rw [List.pairwise_cons] at hkeys
    rcases List.mem_cons.mp hx with ex | mx <;> rcases List.mem_cons.mp hy with ey | my
    · rw [ex, ey]
    · rw [ex] at h; exact absurd h (hkeys.1 y my)
    · rw [ey] at h; exact absurd h.symm (hkeys.1 x mx)
    · exact ih hkeys.2 mx my

theorem CreateBooking_court_not_found_iff (s : Store) (userID : Nat)
    (req : CreateBookingRequest) :
    (CreateBooking s userID req).1 = .error "court not found"
      ↔ findActiveCourt s req.CourtID = none := by
  cases hcourt : findActiveCourt s req.CourtID with
  | none => simp [CreateBooking, hcourt]
  | some court =>
    cases hdate : parseDate req.Date with
    | none => simp [CreateBooking, hcourt, hdate]
    | some date =>
      cases hav : checkAvailability s req.CourtID date req.StartTime req.EndTime with
      | false => simp [CreateBooking, hcourt, hdate, hav]
      | true =>
        cases hday : dateColumn s.loc date with
        | none => simp [CreateBooking, hcourt, hdate, hav, hday]
        | some day => simp [CreateBooking, hcourt, hdate, hav, hday]

/-- C14: primary keys of courts being unique, `CreateBooking` returns the
error "court not found" if and only if no court with the requested id exists
(soft-deleted rows do not count) or the court with that id has
`is_active = false`; when it returns that error the store is unchanged. -/
theorem CreateBooking_court_not_found (s : Store) (userID : Nat) (req : CreateBookingRequest)
    (hkeys : s.courtKeys) :
    ((CreateBooking s userID req).1 = .error "court not found"
        ↔ ((¬ ∃ c ∈ s.courts, c.ID = req.CourtID ∧ c.Deleted = false)
            ∨ ∃ c ∈ s.courts, c.ID = req.CourtID ∧ c.Deleted = false ∧ c.IsActive = false))
      ∧ ((CreateBooking s userID req).1 = .error "court not found"
          → (CreateBooking s userID req).2 = s) := by
  constructor
  · rw [CreateBooking_court_not_found_iff]
    unfold findActiveCourt
    rw [List.find?_eq_none]
    constructor
    · intro h
      by_cases hex : ∃ c ∈ s.courts, c.ID = req.CourtID ∧ c.Deleted = false
      · obtain ⟨c, hc, hid, hdel⟩ := hex
        refine Or.inr ⟨c, hc, hid, hdel, ?_⟩
        have := h c hc
        simpa [hid, hdel] using this
      · exact Or.inl hex
    · rintro (h | ⟨c, hc, hid, hdel, hact⟩)
      · intro x hx hp
        simp only [Bool.and_eq_true, beq_iff_eq, Bool.not_eq_true', decide_eq_true_eq] at hp
        exact h ⟨x, hx, hp.1.1, hp.2⟩
      · intro x hx hp
        simp only [Bool.and_eq_true, beq_iff_eq, Bool.not_eq_true', decide_eq_true_eq] at hp
        have hxc : x = c :=
          eq_of_key_eq (fun c : Court => c.ID) s.courts hkeys x c hx hc (hp.1.1.trans hid.symm)
        rw [hxc, hact] at hp
        exact Bool.noConfusion hp.1.2
  · intro h
    have hnone := (CreateBooking_court_not_found_iff s userID req).mp h
    simp [CreateBooking, hnone]

/-- Witness of C14: the only court with id 1 is inactive. -/
theorem CreateBooking_court_not_found_witness :
    ((CreateBooking
          { sampleStore mondayHours [] with courts := [{ sampleCourt with IsActive := false }] }
          7 (sampleRequest "10:00" "11:00")).1 = .error "court not found"
        ↔ ((¬ ∃ c ∈ [{ sampleCourt with IsActive := false }],
              c.ID = (sampleRequest "10:00" "11:00").CourtID ∧ c.Deleted = false)
            ∨ ∃ c ∈ [{ sampleCourt with IsActive := false }],
              c.ID = (sampleRequest "10:00" "11:00").CourtID ∧ c.Deleted = false
                ∧ c.IsActive = false))
      ∧ ((CreateBooking
          { sampleStore mondayHours [] with courts := [{ sampleCourt with IsActive := false }] }
          7 (sampleRequest "10:00" "11:00")).1 = .error "court not found"
          → (CreateBooking
          { sampleStore mondayHours [] with courts := [{ sampleCourt with IsActive := false }] }
          7 (sampleRequest "10:00" "11:00")).2
            = { sampleStore mondayHours [] with
                courts := [{ sampleCourt with IsActive := false }] }) :=
  CreateBooking_court_not_found _ 7 (sampleRequest "10:00" "11:00") (by decide)

theorem setBookingStatus_keys (bookings : List Booking) (id : Nat) (status : String) :
    (setBookingStatus bookings id status).map (fun b => (b.ID, b.TotalPrice))
      = bookings.map (fun b => (b.ID, b.TotalPrice)) := by
  simp only [setBookingStatus, List.map_map]
  apply List.map_congr_left
  intro b _
  simp only [Function.comp]
  split_ifs <;> rfl

theorem CancelBooking_bookings (s : Store) (id userID : Nat) :
    (CancelBooking s id userID).2.bookings = s.bookings
      ∨ ∃ bookingID, (CancelBooking s id userID).2.bookings
          = setBookingStatus s.bookings bookingID "cancelled" := by
  unfold CancelBooking
  split
  · exact Or.inl rfl
  · split_ifs
    · exact Or.inl rfl
    · exact Or.inl rfl
    · exact Or.inr ⟨_, rfl⟩

theorem HandleWebhook_bookings (s : Store) (dataID : Option String)
    (paymentInfo : Option PaymentInfo) :
    (HandleWebhook s dataID paymentInfo).2.bookings = s.bookings
      ∨ ∃ bookingID info, paymentInfo = some info
          ∧ mapMercadoPagoStatus info.Status = "approved"
          ∧ (HandleWebhook s dataID paymentInfo).2.bookings
            = setBookingStatus s.bookings bookingID "confirmed" := by
  unfold HandleWebhook
  split
  · exact Or.inl rfl
  · split
    · exact Or.inl rfl
    · split
      · exact Or.inl rfl
      · dsimp only
        split_ifs with h
        · exact Or.inr ⟨_, _, rfl, by simpa using h, rfl⟩
        · exact Or.inl rfl

theorem UpdateCourt_bookings (s : Store) (id ownerID : Nat) (req : UpdateCourtRequest) :
    (UpdateCourt s id ownerID req).2.bookings = s.bookings := by
  unfold UpdateCourt
  split
  · rfl
  · dsimp only
    split <;> rfl

theorem CreateSpecialHours_bookings (s : Store) (courtID ownerID : Nat) (req : SpecialHour) :
    (CreateSpecialHours s courtID ownerID req).2.bookings = s.bookings := by
  unfold CreateSpecialHours
  split <;> rfl

theorem CreateBooking_bookings (s : Store) (userID : Nat) (req : CreateBookingRequest) :
    (CreateBooking s userID req).2.bookings = s.bookings
      ∨ ∃ court date, (CreateBooking s userID req).2.bookings
          = s.bookings ++ [newBooking s userID req court date] := by
  unfold CreateBooking
  split
  · exact Or.inl rfl
  · split
    · exact Or.inl rfl
    · dsimp only
      split_ifs
      · exact Or.inl rfl
      · split
        · exact Or.inl rfl
        · exact Or.inr ⟨_, _, rfl⟩

theorem apply_keys (s : Store) (op : Operation) :
    ∃ extra, (op.apply s).bookings.map (fun b => (b.ID, b.TotalPrice))
      = s.bookings.map (fun b => (b.ID, b.TotalPrice)) ++ extra := by
  cases op with
  | updateCourt id ownerID req =>
    exact ⟨[], by simp [Operation.apply, UpdateCourt_bookings]⟩
  | cancelBooking id userID =>
    rcases CancelBooking_bookings s id userID with h | ⟨_, h⟩
    · exact ⟨[], by simp [Operation.apply, h]⟩
    · exact ⟨[], by simp [Operation.apply, h, setBookingStatus_keys]⟩
  | handleWebhook dataID paymentInfo =>
    rcases HandleWebhook_bookings s dataID paymentInfo with h | ⟨_, _, _, _, h⟩
    · exact ⟨[], by simp [Operation.apply, h]⟩
    · exact ⟨[], by simp [Operation.apply, h, setBookingStatus_keys]⟩
  | createSpecialHours courtID ownerID req =>
    exact ⟨[], by simp [Operation.apply, CreateSpecialHours_bookings]⟩
  | createBooking userID req =>
    rcases CreateBooking_bookings s userID req with h | ⟨court, date, h⟩
    · exact ⟨[], by simp [Operation.apply, h]⟩
    · exact ⟨[newBooking s userID req court date].map (fun b => (b.ID, b.TotalPrice)),
        by simp only [Operation.apply, h, List.map_append]⟩

/-- C16: whatever operations follow (`UpdateCourt`, a change of
`price_per_hour` included, `CancelBooking`, `HandleWebhook`,
`CreateSpecialHours`, `CreateBooking`), every booking stored before them is
still stored at its place with its id and its total price; the rows after
them are the bookings created since. -/
theorem total_price_kept (s : Store) (ops : List Operation) :
    s.bookings.map (fun b => (b.ID, b.TotalPrice))
      <+: (s.after ops).bookings.map (fun b => (b.ID, b.TotalPrice)) := by
  unfold Store.after
  induction ops generalizing s with
  | nil => exact List.prefix_refl _
  | cons op rest ih =>
    obtain ⟨extra, h⟩ := apply_keys s op
    exact List.IsPrefix.trans ⟨extra, h.symm⟩ (ih (op.apply s))

/-- C17 fails on the code: booking 1 is pending with a pending payment; the
user cancels it, then the provider reports the payment approved, and
`HandleWebhook` sets the cancelled booking to confirmed.  The same happens to
a booking stored as completed. -/
theorem HandleWebhook_revives_cancelled :
    (CancelBooking (paidStore "pending") 1 7).1 = .ok ()
      ∧ (CancelBooking (paidStore "pending") 1 7).2.bookings.map (fun b => b.Status)
          = ["cancelled"]
      ∧ (HandleWebhook (CancelBooking (paidStore "pending") 1 7).2 (some "mp-9")
          (some (providerInfo "approved"))).1 = .ok ()
      ∧ (HandleWebhook (CancelBooking (paidStore "pending") 1 7).2 (some "mp-9")
          (some (providerInfo "approved"))).2.bookings.map (fun b => b.Status) = ["confirmed"]
      ∧ (HandleWebhook (paidStore "completed") (some "mp-9")
          (some (providerInfo "approved"))).2.bookings.map (fun b => b.Status)
            = ["confirmed"] := by
  decide

theorem mapMercadoPagoStatus_approved (status : String) :
    mapMercadoPagoStatus status = "approved" ↔ status = "approved" := by
  unfold mapMercadoPagoStatus
  split <;> simp_all

theorem mem_setBookingStatus (bookings : List Booking) (id : Nat) (status : String)
    (b : Booking) (hb : b ∈ setBookingStatus bookings id status) :
    b ∈ bookings ∨ b.Status = status := by
  simp only [setBookingStatus, List.mem_map] at hb
  obtain ⟨x, hx, hxb⟩ := hb
  split_ifs at hxb
  · exact Or.inr (by rw [← hxb])
  · exact Or.inl (by rw [← hxb]; exact hx)

/-- C18: when the provider status of the payment is not "approved" (pending,
rejected, cancelled or anything else), `HandleWebhook` leaves the bookings
table as it is; and a booking that is confirmed after `CreateBooking` or
after `CancelBooking` was stored as it is, confirmed, before the call. -/
theorem confirmed_only_by_approval (s : Store) (dataID : Option String)
    (paymentInfo : Option PaymentInfo) (userID : Nat) (req : CreateBookingRequest)
    (id cancelUser : Nat)
    (hstatus : ∀ info, paymentInfo = some info → info.Status ≠ "approved") :
    (HandleWebhook s dataID paymentInfo).2.bookings = s.bookings
      ∧ (∀ b ∈ (CreateBooking s userID req).2.bookings, b.Status = "confirmed" → b ∈ s.bookings)
      ∧ (∀ b ∈ (CancelBooking s id cancelUser).2.bookings,
          b.Status = "confirmed" → b ∈ s.bookings) := by
  refine ⟨?_, ?_, ?_⟩
  · rcases HandleWebhook_bookings s dataID paymentInfo with h | ⟨_, info, hinfo, happ, _⟩
    · exact h
    · exact absurd ((mapMercadoPagoStatus_approved info.Status).mp happ) (hstatus info hinfo)
  · intro b hb hconf
    rcases CreateBooking_bookings s userID req with h | ⟨court, date, h⟩
    · rw [h] at hb; exact hb
    · rw [h] at hb
      rcases List.mem_append.mp hb with hb | hb
      · exact hb
      · rw [List.mem_singleton.mp hb] at hconf
        exact absurd hconf (by simp [newBooking])
  · intro b hb hconf
    rcases CancelBooking_bookings s id cancelUser with h | ⟨bookingID, h⟩
    · rw [h] at hb; exact hb
    · rw [h] at hb
      rcases mem_setBookingStatus _ _ _ b hb with hb | hb
      · exact hb
      · rw [hb] at hconf
        exact absurd hconf (by decide)

/-- Witness of C18: the provider reports "rejected" for the payment of the
pending booking 1. -/
theorem confirmed_only_by_approval_witness :
    (HandleWebhook (paidStore "pending") (some "mp-9")
        (some (providerInfo "rejected"))).2.bookings = (paidStore "pending").bookings
      ∧ (∀ b ∈ (CreateBooking (paidStore "pending") 8
            (sampleRequest "12:00" "13:00")).2.bookings,
          b.Status = "confirmed" → b ∈ (paidStore "pending").bookings)
      ∧ (∀ b ∈ (CancelBooking (paidStore "pending") 1 7).2.bookings,
          b.Status = "confirmed" → b ∈ (paidStore "pending").bookings) :=
  confirmed_only_by_approval (paidStore "pending") (some "mp-9")
    (some (providerInfo "rejected")) 8 (sampleRequest "12:00" "13:00") 1 7
    (by intro info h; cases h; decide)

theorem setBookingStatus_idem (bookings : List Booking) (id : Nat) (status : String) :
    setBookingStatus (setBookingStatus bookings id status) id status
      = setBookingStatus bookings id status := by
  simp only [setBookingStatus, List.map_map]
  apply List.map_congr_left
  intro b _
  simp only [Function.comp]
  by_cases h : (b.ID == id) = true <;> simp [h]

theorem savePayment_idem (payments : List Payment) (payment : Payment) :
    savePayment (savePayment payments payment) payment = savePayment payments payment := by
  simp only [savePayment, List.map_map]
  apply List.map_congr_left
  intro p _
  simp only [Function.comp]
  by_cases h : (p.ID == payment.ID && !p.Deleted) = true
  · simp only [h, if_true]
    split_ifs <;> rfl
  · simp [h]

theorem find?_savePayment (payments : List Payment) (preferenceID : String)
    (found payment : Payment)
    (hfound : payments.find? (fun p => p.PreferenceID == preferenceID && !p.Deleted)
      = some found)
    (hid : payment.ID = found.ID) (hpref : payment.PreferenceID = found.PreferenceID)
    (hdel : payment.Deleted = found.Deleted) :
    (savePayment payments payment).find? (fun p => p.PreferenceID == preferenceID && !p.Deleted)
      = some payment := by
  have hp : (found.PreferenceID == preferenceID && !found.Deleted) = true := by
    have := List.find?_some hfound
    simpa using this
  have hpay : (payment.PreferenceID == preferenceID && !payment.Deleted) = true := by
    rw [hpref, hdel]; exact hp
  induction payments with
  | nil => simp at hfound
  | cons x rest ih =>
    simp only [savePayment, List.map_cons]
    by_cases hx : (x.PreferenceID == preferenceID && !x.Deleted) = true
    · have hxf : x = found := by
        simpa [List.find?_cons, hx] using hfound
      have hcond : (x.ID == payment.ID && !x.Deleted) = true := by
        rw [hxf, hid]
        simp only [Bool.and_eq_true, Bool.not_eq_true', beq_iff_eq] at hp ⊢
        exact ⟨trivial, hp.2⟩
      simp only [hcond, if_true, List.find?_cons, hpay]
    · have hrest : rest.find? (fun p => p.PreferenceID == preferenceID && !p.Deleted)
          = some found := by
        simpa [List.find?_cons, hx] using hfound
      by_cases hcond : (x.ID == payment.ID && !x.Deleted) = true
      · simp only [hcond, if_true, List.find?_cons, hpay]
      · have hx2 : (x.PreferenceID == preferenceID && !x.Deleted) = false := by
          simpa using hx
        have hcond2 : (x.ID == payment.ID && !x.Deleted) = false := by
          simpa using hcond
        simp only [hcond2, Bool.false_eq_true, if_false, List.find?_cons, hx2]
        simpa only [savePayment] using ih hrest

theorem HandleWebhook_approved (s : Store) (paymentID : String) (info : PaymentInfo)
    (found : Payment) (happ : info.Status = "approved")
    (hfound : findByPreference s info.PreferenceID = some found) :
    HandleWebhook s (some paymentID) (some info)
      = (.ok (),
          { s with
            payments := savePayment s.payments
              { found with
                MercadoPagoID := paymentID
                Status := "approved"
                PaymentMethod := info.PaymentMethodID }
            bookings := setBookingStatus s.bookings found.BookingID "confirmed" }) := by
  have hmap : mapMercadoPagoStatus info.Status = "approved" :=
    (mapMercadoPagoStatus_approved _).mpr happ
  simp [HandleWebhook, hfound, hmap]

/-- C19: let the provider report a payment approved, the payment being
found by its preference id and belonging to a stored booking (a pending one
in particular).  Then the first delivery returns no error, leaves that
booking confirmed and the payment approved, and a second delivery of the same
outcome returns no error and leaves the store exactly as the first did. -/
theorem HandleWebhook_idempotent (s : Store) (paymentID : String) (info : PaymentInfo)
    (payment : Payment) (booking : Booking) (happ : info.Status = "approved")
    (hpay : findByPreference s info.PreferenceID = some payment)
    (hbook : booking ∈ s.bookings) (hid : booking.ID = payment.BookingID) :
    (HandleWebhook s (some paymentID) (some info)).1 = .ok ()
      ∧ (HandleWebhook (HandleWebhook s (some paymentID) (some info)).2 (some paymentID)
          (some info)).1 = .ok ()
      ∧ (HandleWebhook (HandleWebhook s (some paymentID) (some info)).2 (some paymentID)
          (some info)).2 = (HandleWebhook s (some paymentID) (some info)).2
      ∧ { booking with Status := "confirmed" }
          ∈ (HandleWebhook s (some paymentID) (some info)).2.bookings
      ∧ (∀ b ∈ (HandleWebhook s (some paymentID) (some info)).2.bookings,
          b.ID = payment.BookingID → b.Status = "confirmed")
      ∧ (∃ p ∈ (HandleWebhook s (some paymentID) (some info)).2.payments,
          p.ID = payment.ID ∧ p.BookingID = payment.BookingID ∧ p.Status = "approved") := by
  have h1 := HandleWebhook_approved s paymentID info payment happ hpay
  have hfind2 : findByPreference (HandleWebhook s (some paymentID) (some info)).2
      info.PreferenceID
      = some { payment with
          MercadoPagoID := paymentID
          Status := "approved"
          PaymentMethod := info.PaymentMethodID } := by
    rw [h1]
    exact find?_savePayment s.payments info.PreferenceID payment _ hpay rfl rfl rfl
  have h2 := HandleWebhook_approved (HandleWebhook s (some paymentID) (some info)).2 paymentID
    info _ happ hfind2
  have hlive : payment.Deleted = false := by
    have := List.find?_some hpay
    simp only [Bool.and_eq_true, Bool.not_eq_true', beq_iff_eq] at this
    exact this.2
  refine ⟨by rw [h1], by rw [h2], ?_, ?_, ?_, ?_⟩
  · rw [h2]
    rw [h1]
    simp only [savePayment_idem, setBookingStatus_idem]
  · rw [h1]
    simp only [setBookingStatus, List.mem_map]
    exact ⟨booking, hbook, by simp [hid]⟩
  · rw [h1]
    intro b hb hbid
    simp only [setBookingStatus, List.mem_map] at hb
    obtain ⟨x, _, hxb⟩ := hb
    split_ifs at hxb with hx
    · rw [← hxb]
    · rw [← hxb] at hbid
      exact absurd (by simpa using hbid) hx
  · rw [h1]
    refine ⟨{ payment with
        MercadoPagoID := paymentID
        Status := "approved"
        PaymentMethod := info.PaymentMethodID }, ?_, rfl, rfl, rfl⟩
    simp only [savePayment, List.mem_map]
    exact ⟨payment, List.mem_of_find?_eq_some hpay, by simp [hlive]⟩

/-- Witness of C19: the pending booking 1 and its payment of preference
`pref-1`. -/
theorem HandleWebhook_idempotent_witness :
    (HandleWebhook (paidStore "pending") (some "mp-9") (some (providerInfo "approved"))).1
        = .ok ()
      ∧ (HandleWebhook
          (HandleWebhook (paidStore "pending") (some "mp-9") (some (providerInfo "approved"))).2
          (some "mp-9") (some (providerInfo "approved"))).1 = .ok ()
      ∧ (HandleWebhook
          (HandleWebhook (paidStore "pending") (some "mp-9") (some (providerInfo "approved"))).2
          (some "mp-9") (some (providerInfo "approved"))).2
        = (HandleWebhook (paidStore "pending") (some "mp-9")
            (some (providerInfo "approved"))).2
      ∧ { sampleBooking 1 7 "10:00" "11:00" "pending" with Status := "confirmed" }
          ∈ (HandleWebhook (paidStore "pending") (some "mp-9")
              (some (providerInfo "approved"))).2.bookings
      ∧ (∀ b ∈ (HandleWebhook (paidStore "pending") (some "mp-9")
              (some (providerInfo "approved"))).2.bookings,
          b.ID = (samplePayment "pending").BookingID → b.Status = "confirmed")
      ∧ (∃ p ∈ (HandleWebhook (paidStore "pending") (some "mp-9")
              (some (providerInfo "approved"))).2.payments,
          p.ID = (samplePayment "pending").ID
            ∧ p.BookingID = (samplePayment "pending").BookingID ∧ p.Status = "approved") :=
  HandleWebhook_idempotent (paidStore "pending") "mp-9" (providerInfo "approved")
    (samplePayment "pending") (sampleBooking 1 7 "10:00" "11:00" "pending") (by decide)
    (by decide) (by decide) (by decide)

theorem find?_of_key (s : Store) (hkeys : s.bookingKeys) (id userID : Nat) (b : Booking)
    (hb : b ∈ s.bookings) (hid : b.ID = id) (huser : b.UserID = userID) :
    s.bookings.find? (fun b => b.ID == id && b.UserID == userID) = some b := by
  cases hfind : s.bookings.find? (fun b => b.ID == id && b.UserID == userID) with
  | none =>
    rw [List.find?_eq_none] at hfind
    exact absurd (by simp [hid, huser]) (hfind b hb)
  | some x =>
    have hx := List.find?_some hfind
    simp only [Bool.and_eq_true, beq_iff_eq] at hx
    have hxb : x = b :=
      eq_of_key_eq (fun b : Booking => b.ID) s.bookings hkeys x b
        (List.mem_of_find?_eq_some hfind) hb (hx.1.trans hid.symm)
    rw [hxb]

/-- C20: primary keys of bookings being unique, `CancelBooking(id, user)`
returns "booking not found" when no booking with that id belongs to that user
(also when the booking with that id belongs to someone else), "booking
already cancelled" when the booking of that user with that id is cancelled,
and "cannot cancel completed booking" when it is completed; each time the
store is unchanged. -/
theorem CancelBooking_errors (s : Store) (id userID : Nat) (hkeys : s.bookingKeys) :
    ((∀ b ∈ s.bookings, b.ID = id → b.UserID ≠ userID)
        → CancelBooking s id userID = (.error "booking not found", s))
      ∧ (∀ b ∈ s.bookings, b.ID = id → b.UserID = userID → b.Status = "cancelled"
        → CancelBooking s id userID = (.error "booking already cancelled", s))
      ∧ (∀ b ∈ s.bookings, b.ID = id → b.UserID = userID → b.Status = "completed"
        → CancelBooking s id userID = (.error "cannot cancel completed booking", s)) := by
  refine ⟨?_, ?_, ?_⟩
  · intro h
    have hnone : s.bookings.find? (fun b => b.ID == id && b.UserID == userID) = none := by
      rw [List.find?_eq_none]
      intro b hb hp
      simp only [Bool.and_eq_true, beq_iff_eq] at hp
      exact h b hb hp.1 hp.2
    simp only [CancelBooking, hnone]
  · intro b hb hid huser hstatus
    simp [CancelBooking, find?_of_key s hkeys id userID b hb hid huser, hstatus]
  · intro b hb hid huser hstatus
    simp [CancelBooking, find?_of_key s hkeys id userID b hb hid huser, hstatus]

/-- Witness of C20: booking 1 of user 7, cancelled; user 8 asks, then user 7. -/
theorem CancelBooking_errors_witness :
    ((∀ b ∈ (paidStore "cancelled").bookings, b.ID = 1 → b.UserID ≠ 8)
        → CancelBooking (paidStore "cancelled") 1 8
          = (.error "booking not found", paidStore "cancelled"))
      ∧ (CancelBooking (paidStore "cancelled") 1 7
          = (.error "booking already cancelled", paidStore "cancelled"))
      ∧ (CancelBooking (paidStore "completed") 1 7
          = (.error "cannot cancel completed booking", paidStore "completed")) :=
  ⟨(CancelBooking_errors (paidStore "cancelled") 1 8 (by decide)).1,
   (CancelBooking_errors (paidStore "cancelled") 1 7 (by decide)).2.1
      (sampleBooking 1 7 "10:00" "11:00" "cancelled") (by decide) rfl rfl rfl,
   (CancelBooking_errors (paidStore "completed") 1 7 (by decide)).2.2
      (sampleBooking 1 7 "10:00" "11:00" "completed") (by decide) rfl rfl rfl⟩

/-- C21: primary keys of bookings being unique, for a stored booking of the
caller with status pending or confirmed `CancelBooking` returns no error; in
the store after the call that booking has status "cancelled" and its other
columns (total price, date, times, court, user, notes) as before, every other
booking is as before, and so are the other tables. -/
theorem CancelBooking_cancels (s : Store) (id userID : Nat) (b : Booking)
    (hkeys : s.bookingKeys) (hb : b ∈ s.bookings) (hid : b.ID = id)
    (huser : b.UserID = userID) (hstatus : b.Status = "pending" ∨ b.Status = "confirmed") :
    CancelBooking s id userID
      = (.ok (),
          { s with
            bookings := s.bookings.map (fun x =>
              if x = b then { b with Status := "cancelled" } else x) }) := by
  have hfind := find?_of_key s hkeys id userID b hb hid huser
  have h1 : ¬ b.Status = "cancelled" := by
    rcases hstatus with h | h <;> rw [h] <;> decide
  have h2 : ¬ b.Status = "completed" := by
    rcases hstatus with h | h <;> rw [h] <;> decide
  simp only [CancelBooking, hfind, beq_iff_eq, h1, h2, if_false, setBookingStatus]
  congr 2
  apply List.map_congr_left
  intro x hx
  by_cases hxb : x = b
  · simp [hxb]
  · have hne : ¬ x.ID = b.ID := fun h =>
      hxb (eq_of_key_eq (fun b : Booking => b.ID) s.bookings hkeys x b hx hb h)
    simp [hxb, hne]

/-- Witness of C21: user 7 cancels the pending booking 1. -/
theorem CancelBooking_cancels_witness :
    CancelBooking (paidStore "pending") 1 7
      = (.ok (),
          { paidStore "pending" with
            bookings := (paidStore "pending").bookings.map (fun x =>
              if x = sampleBooking 1 7 "10:00" "11:00" "pending" then
                { sampleBooking 1 7 "10:00" "11:00" "pending" with Status := "cancelled" }
              else x) }) :=
  CancelBooking_cancels (paidStore "pending") 1 7 (sampleBooking 1 7 "10:00" "11:00" "pending")
    (by decide) (by decide) rfl rfl (Or.inl rfl)

theorem mapMercadoPagoStatus_cases (status : String) :
    (mapMercadoPagoStatus status = "pending" ∨ mapMercadoPagoStatus status = "approved"
        ∨ mapMercadoPagoStatus status = "rejected" ∨ mapMercadoPagoStatus status = "cancelled")
      ∧ ((status = "pending" ∨ status = "approved" ∨ status = "rejected"
          ∨ status = "cancelled") → mapMercadoPagoStatus status = status)
      ∧ (¬ (status = "pending" ∨ status = "approved" ∨ status = "rejected"
          ∨ status = "cancelled") → mapMercadoPagoStatus status = "pending") := by
  unfold mapMercadoPagoStatus
  split <;> simp_all

theorem HandleWebhook_payments (s : Store) (dataID : Option String)
    (paymentInfo : Option PaymentInfo) :
    (HandleWebhook s dataID paymentInfo).2.payments = s.payments
      ∨ ∃ payment : Payment,
          (payment.Status = "pending" ∨ payment.Status = "approved"
            ∨ payment.Status = "rejected" ∨ payment.Status = "cancelled")
          ∧ (HandleWebhook s dataID paymentInfo).2.payments = savePayment s.payments payment := by
  unfold HandleWebhook
  split
  · exact Or.inl rfl
  · split
    · exact Or.inl rfl
    · rename_i info
      split
      · exact Or.inl rfl
      · dsimp only
        split_ifs
        · exact Or.inr ⟨_, (mapMercadoPagoStatus_cases info.Status).1, rfl⟩
        · exact Or.inr ⟨_, (mapMercadoPagoStatus_cases info.Status).1, rfl⟩

/-- C23: for every input `mapMercadoPagoStatus` returns one of pending,
approved, rejected, cancelled; it returns the input when the input is one of
the four and "pending" otherwise; and a payment row to which `HandleWebhook`
has written carries one of the four statuses. -/
theorem mapMercadoPagoStatus_range (status : String) (s : Store) (dataID : Option String)
    (paymentInfo : Option PaymentInfo) :
    (mapMercadoPagoStatus status = "pending" ∨ mapMercadoPagoStatus status = "approved"
        ∨ mapMercadoPagoStatus status = "rejected" ∨ mapMercadoPagoStatus status = "cancelled")
      ∧ ((status = "pending" ∨ status = "approved" ∨ status = "rejected"
          ∨ status = "cancelled") → mapMercadoPagoStatus status = status)
      ∧ (¬ (status = "pending" ∨ status = "approved" ∨ status = "rejected"
          ∨ status = "cancelled") → mapMercadoPagoStatus status = "pending")
      ∧ (∀ p ∈ (HandleWebhook s dataID paymentInfo).2.payments,
          p ∈ s.payments ∨ p.Status = "pending" ∨ p.Status = "approved"
            ∨ p.Status = "rejected" ∨ p.Status = "cancelled") := by
  obtain ⟨h1, h2, h3⟩ := mapMercadoPagoStatus_cases status
  refine ⟨h1, h2, h3, ?_⟩
  intro p hp
  rcases HandleWebhook_payments s dataID paymentInfo with h | ⟨payment, hstat, h⟩
  · rw [h] at hp; exact Or.inl hp
  · rw [h] at hp
    simp only [savePayment, List.mem_map] at hp
    obtain ⟨x, hx, hxp⟩ := hp
    split_ifs at hxp
    · exact Or.inr (by rw [← hxp]; exact hstat)
    · exact Or.inl (by rw [← hxp]; exact hx)

/-- Witness of C23: the provider status "in_process" is none of the four. -/
theorem mapMercadoPagoStatus_range_witness :
    mapMercadoPagoStatus "in_process" = "pending"
      ∧ mapMercadoPagoStatus "rejected" = "rejected" :=
  ⟨(mapMercadoPagoStatus_range "in_process" unpaidStore none none).2.2.1 (by decide),
   (mapMercadoPagoStatus_range "rejected" unpaidStore none none).2.1 (by decide)⟩

/-- Counterexample to C24: the sample court is open on Mondays from 08:00 to
20:00 and has no Special Hours; the request 06:00-07:00 for Monday 18 March
2024 starts before the opening time, and `CreateBooking` accepts it and
stores the booking. -/
theorem CreateBooking_outside_hours :
    weekday sampleDate = 1
      ∧ (sampleStore mondayHours []).businessHours = [mondayHours]
      ∧ parseClockOrZero "06:00" < parseClockOrZero mondayHours.OpenTime
      ∧ (CreateBooking (sampleStore mondayHours []) 7 (sampleRequest "06:00" "07:00")).1.isOk
          = true
      ∧ (CreateBooking (sampleStore mondayHours []) 7
          (sampleRequest "06:00" "07:00")).2.bookings.length = 1 := by
  decide

/-- C24, amended: `CreateBooking` never reads the weekly business hours nor
the Special Hours: whatever operating window is stored for the court and the
date, it gives the same answer and stores the same bookings, so an interval
outside the window is accepted or rejected like any other. -/
theorem CreateBooking_hours_unread (s : Store) (hours : List BusinessHour)
    (special : List SpecialHour) (userID : Nat) (req : CreateBookingRequest) :
    (CreateBooking { s with businessHours := hours, specialHours := special } userID req).1
        = (CreateBooking s userID req).1
      ∧ (CreateBooking { s with businessHours := hours, specialHours := special }
          userID req).2.bookings = (CreateBooking s userID req).2.bookings := by
  have e1 : findActiveCourt { s with businessHours := hours, specialHours := special }
      req.CourtID = findActiveCourt s req.CourtID := rfl
  simp only [CreateBooking, e1]
  cases findActiveCourt s req.CourtID with
  | none => exact ⟨rfl, rfl⟩
  | some court =>
    cases parseDate req.Date with
    | none => exact ⟨rfl, rfl⟩
    | some date =>
      have e2 : checkAvailability { s with businessHours := hours, specialHours := special }
          req.CourtID date req.StartTime req.EndTime
          = checkAvailability s req.CourtID date req.StartTime req.EndTime := rfl
      dsimp only
      rw [e2]
      cases checkAvailability s req.CourtID date req.StartTime req.EndTime with
      | false => exact ⟨rfl, rfl⟩
      | true =>
        simp only [Bool.not_true, Bool.false_eq_true, if_false]
        cases dateColumn s.loc date with
        | none => exact ⟨rfl, rfl⟩
        | some day => exact ⟨rfl, rfl⟩

/-- C26: for a stored booking whose times are the zero-padded `HH:MM` texts
of the minutes `a < b` of a day and a requested interval given by the texts
of the minutes `c`, `d` (whether or not `c < d`), the three-disjunct
condition of `checkAvailability` on the texts has the value of
`isTimeSlotOverlapping` on the requested interval, taken as a slot, and the
booking. -/
theorem conflictCondition_eq_isTimeSlotOverlapping (booking : Booking) (slot : TimeSlot)
    (a b c d : Nat) (hb : b < 1440) (hab : a < b) (hc : c < 1440) (hd : d < 1440)
    (h1 : booking.StartTime = formatClock a) (h2 : booking.EndTime = formatClock b)
    (h3 : slot.StartTime = formatClock c) (h4 : slot.EndTime = formatClock d) :
    conflictCondition booking slot.StartTime slot.EndTime
      = isTimeSlotOverlapping slot booking := by
  have ha : a < 1440 := by omega
  have w1 : wellFormedClock booking.StartTime = true :=
    (wellFormedClock_iff _).mpr ⟨a, ha, h1⟩
  have w2 : wellFormedClock booking.EndTime = true :=
    (wellFormedClock_iff _).mpr ⟨b, hb, h2⟩
  have w3 : wellFormedClock slot.StartTime = true :=
    (wellFormedClock_iff _).mpr ⟨c, hc, h3⟩
  have w4 : wellFormedClock slot.EndTime = true :=
    (wellFormedClock_iff _).mpr ⟨d, hd, h4⟩
  rw [conflictCondition_eq booking _ _ w1 w2 w3 w4]
  simp only [isTimeSlotOverlapping, h1, h2, h3, h4, parseClockOrZero_formatClock, ha, hb, hc, hd]
  by_cases x1 : c < b <;> by_cases x2 : a < d <;> simp [x1, x2] <;> omega

/-- Witness of C26: the booking 10:00-11:00 and the request 10:30-11:30. -/
theorem conflictCondition_eq_isTimeSlotOverlapping_witness :
    conflictCondition (sampleBooking 1 7 "10:00" "11:00" "confirmed") "10:30" "11:30"
      = isTimeSlotOverlapping ⟨"10:30", "11:30", true, 15⟩
          (sampleBooking 1 7 "10:00" "11:00" "confirmed") :=
  conflictCondition_eq_isTimeSlotOverlapping (sampleBooking 1 7 "10:00" "11:00" "confirmed")
    ⟨"10:30", "11:30", true, 15⟩ 600 660 630 690 (by decide) (by decide) (by decide)
    (by decide) (by decide) (by decide) (by decide) (by decide)

theorem generateLoop_closed (r : Rat) (closeT cur fuel : Nat) (h : closeT ≤ cur) :
    generateLoop r closeT fuel cur = [] := by
  cases fuel with
  | zero => rfl
  | succ f =>
    have hlt : ¬ cur < closeT := by omega
    simp only [generateLoop, hlt, if_false]

theorem generateLoop_any (r : Rat) (closeT cur fuel : Nat) (hfuel : (closeT - cur) / 60 ≤ fuel) :
    generateLoop r closeT fuel cur =
      (List.range ((closeT - cur) / 60)).map (fun k =>
        { StartTime := formatClock (cur + 60 * k)
          EndTime := formatClock (cur + 60 * k + 60)
          Available := true
          Price := r }) := by
  rcases Nat.lt_or_ge closeT cur with hlt | hge
  · have h0 : (closeT - cur) / 60 = 0 := by omega
    rw [generateLoop_closed r closeT cur fuel (Nat.le_of_lt hlt), h0]
    rfl
  · exact generateLoop_eq r closeT ((closeT - cur) / 60) fuel cur hfuel (by omega) (by omega)

/-- C25: for every pair of texts, parsed or not, `generateTimeSlots` returns
a finite list that is a function of its inputs alone: with `o` and `c` the
instants bound to the opening and the closing text (the zero `time.Time` for
a text that does not parse), it is the list of the `(c - o) / 60` hourly
slots from `o` on, so it is empty when `c ≤ o`; the loop stops by itself
within the fuel given to it, since any fuel of at least `(c - o) / 60` gives
the same list. -/
theorem generateTimeSlots_total (openTime closeTime : String) (r : Rat) :
    generateTimeSlots openTime closeTime r =
        (List.range ((parseClockOrZero closeTime - parseClockOrZero openTime) / 60)).map
          (fun k =>
            { StartTime := formatClock (parseClockOrZero openTime + 60 * k)
              EndTime := formatClock (parseClockOrZero openTime + 60 * k + 60)
              Available := true
              Price := r })
      ∧ (generateTimeSlots openTime closeTime r).length
          = (parseClockOrZero closeTime - parseClockOrZero openTime) / 60
      ∧ (parseClockOrZero closeTime ≤ parseClockOrZero openTime
          → generateTimeSlots openTime closeTime r = [])
      ∧ (∀ fuel, (parseClockOrZero closeTime - parseClockOrZero openTime) / 60 ≤ fuel →
          generateLoop r (parseClockOrZero closeTime) fuel (parseClockOrZero openTime)
            = generateTimeSlots openTime closeTime r) := by
  have hmain := generateLoop_any r (parseClockOrZero closeTime) (parseClockOrZero openTime)
    (parseClockOrZero closeTime - parseClockOrZero openTime) (Nat.div_le_self _ _)
  have hdef : generateTimeSlots openTime closeTime r
      = generateLoop r (parseClockOrZero closeTime)
          (parseClockOrZero closeTime - parseClockOrZero openTime)
          (parseClockOrZero openTime) := rfl
  refine ⟨hdef.trans hmain, ?_, ?_, ?_⟩
  · rw [hdef, hmain, List.length_map, List.length_range]
  · intro hle
    rw [hdef]
    exact generateLoop_closed r _ _ _ hle
  · intro fuel hfuel
    rw [hdef, hmain]
    exact generateLoop_any r _ _ fuel hfuel

/-- Witness of C25: an opening text that does not parse, a closing text that
does not parse (8774 slots, running over 366 days), and a window that closes
before it opens. -/
theorem generateTimeSlots_total_witness :
    generateTimeSlots "soon" "12:00" 10 = []
      ∧ (generateTimeSlots "09:30" "late" 10).length = 8774
      ∧ generateTimeSlots "12:00" "09:00" 10 = [] := by
  have h1 : parseClockOrZero "soon" = 527040 := by decide
  have h2 : parseClockOrZero "12:00" = 720 := by decide
  have h3 : parseClockOrZero "09:30" = 570 := by decide
  have h4 : parseClockOrZero "late" = 527040 := by decide
  have h5 : parseClockOrZero "09:00" = 540 := by decide
  refine ⟨(generateTimeSlots_total "soon" "12:00" 10).2.2.1 (by rw [h1, h2]; decide), ?_,
    (generateTimeSlots_total "12:00" "09:00" 10).2.2.1 (by rw [h2, h5]; decide)⟩
  rw [(generateTimeSlots_total "09:30" "late" 10).2.1, h3, h4]

theorem mem_generateTimeSlots (a b : Nat) (hb : b < 1440) (hab : a ≤ b) (r : Rat)
    (t : TimeSlot) :
    t ∈ generateTimeSlots (formatClock a) (formatClock b) r ↔
      ∃ k, a + 60 * k + 60 ≤ b ∧
        t = { StartTime := formatClock (a + 60 * k)
              EndTime := formatClock (a + 60 * k + 60)
              Available := true
              Price := r } := by
  rw [generateTimeSlots_hourly a b hb hab r]
  simp only [List.mem_map, List.mem_range]
  constructor
  · rintro ⟨k, hk, rfl⟩
    exact ⟨k, by omega, rfl⟩
  · rintro ⟨k, hk, rfl⟩
    exact ⟨k, by omega, rfl⟩

/-- C27: for every slot list and booking list `filterAvailableSlots` returns
the input slots that `isTimeSlotOverlapping` finds to overlap none of the
bookings, each as it was and in the input order; with no booking it returns
the input list; and every slot it returns from the output of
`generateTimeSlots` has `Available = true`. -/
theorem filterAvailableSlots_exact (slots : List TimeSlot) (bookings : List Booking)
    (openTime closeTime : String) (r : Rat) :
    filterAvailableSlots slots bookings
        = slots.filter (fun slot => bookings.all (fun b => !isTimeSlotOverlapping slot b))
      ∧ (∀ slot, slot ∈ filterAvailableSlots slots bookings ↔
          (slot ∈ slots ∧ ∀ b ∈ bookings, isTimeSlotOverlapping slot b = false))
      ∧ filterAvailableSlots slots [] = slots
      ∧ (∀ slot ∈ filterAvailableSlots (generateTimeSlots openTime closeTime r) bookings,
          slot.Available = true) := by
  refine ⟨?_, ?_, ?_, ?_⟩
  · unfold filterAvailableSlots
    congr 1
    funext slot
    induction bookings with
    | nil => rfl
    | cons b rest ih =>
      simp only [List.any_cons, List.all_cons, Bool.not_or, ih]
  · intro slot
    simp [filterAvailableSlots, List.mem_filter]
  · simp [filterAvailableSlots]
  · intro slot h
    simp only [filterAvailableSlots, List.mem_filter] at h
    exact generateLoop_available _ _ _ _ slot h.1

/-- C28: for a window given by the zero-padded `HH:MM` texts of the minutes
`a ≤ b` of a day and a slot `s` generated for it, filtering the generated
slots against one booking with the start and end of `s` keeps exactly the
generated slots other than `s`; the slots that touch `s` stay. -/
theorem filterAvailableSlots_single (a b : Nat) (hb : b < 1440) (hab : a ≤ b) (r : Rat)
    (s : TimeSlot) (booking : Booking)
    (hs : s ∈ generateTimeSlots (formatClock a) (formatClock b) r)
    (hstart : booking.StartTime = s.StartTime) (hend : booking.EndTime = s.EndTime) :
    ∀ t, t ∈ filterAvailableSlots (generateTimeSlots (formatClock a) (formatClock b) r)
        [booking]
      ↔ (t ∈ generateTimeSlots (formatClock a) (formatClock b) r ∧ t ≠ s) := by
  intro t
  obtain ⟨j, hj, hsj⟩ := (mem_generateTimeSlots a b hb hab r s).mp hs
  simp only [filterAvailableSlots, List.mem_filter, List.any_cons, List.any_nil, Bool.or_false,
    Bool.not_eq_true']
  constructor
  · rintro ⟨ht, hov⟩
    refine ⟨ht, ?_⟩
    intro hts
    rw [hts, hsj] at hov
    simp only [isTimeSlotOverlapping, hstart, hend, hsj,
      parseClockOrZero_formatClock (a + 60 * j) (by omega),
      parseClockOrZero_formatClock (a + 60 * j + 60) (by omega)] at hov
    simp at hov
  · rintro ⟨ht, hne⟩
    refine ⟨ht, ?_⟩
    obtain ⟨k, hk, htk⟩ := (mem_generateTimeSlots a b hb hab r t).mp ht
    have hkj : k ≠ j := by
      intro h
      apply hne
      rw [htk, hsj, h]
    simp only [isTimeSlotOverlapping, hstart, hend, hsj, htk,
      parseClockOrZero_formatClock (a + 60 * j) (by omega),
      parseClockOrZero_formatClock (a + 60 * j + 60) (by omega),
      parseClockOrZero_formatClock (a + 60 * k) (by omega),
      parseClockOrZero_formatClock (a + 60 * k + 60) (by omega)]
    simp only [Bool.and_eq_false_imp, decide_eq_true_eq, decide_eq_false_iff_not]
    intro h1
    omega

/-- Witness of C28: the window 09:00-12:00 and its slot 10:00-11:00; the
slot itself and the two slots that touch it. -/
theorem filterAvailableSlots_single_witness :
    ((⟨"10:00", "11:00", true, 15⟩ : TimeSlot)
        ∈ filterAvailableSlots (generateTimeSlots (formatClock 540) (formatClock 720) 15)
          [sampleBooking 1 7 "10:00" "11:00" "confirmed"]
      ↔ ((⟨"10:00", "11:00", true, 15⟩ : TimeSlot)
          ∈ generateTimeSlots (formatClock 540) (formatClock 720) 15
        ∧ (⟨"10:00", "11:00", true, 15⟩ : TimeSlot) ≠ ⟨"10:00", "11:00", true, 15⟩))
    ∧ ((⟨"09:00", "10:00", true, 15⟩ : TimeSlot)
        ∈ filterAvailableSlots (generateTimeSlots (formatClock 540) (formatClock 720) 15)
          [sampleBooking 1 7 "10:00" "11:00" "confirmed"]
      ↔ ((⟨"09:00", "10:00", true, 15⟩ : TimeSlot)
          ∈ generateTimeSlots (formatClock 540) (formatClock 720) 15
        ∧ (⟨"09:00", "10:00", true, 15⟩ : TimeSlot) ≠ ⟨"10:00", "11:00", true, 15⟩))
    ∧ ((⟨"11:00", "12:00", true, 15⟩ : TimeSlot)
        ∈ filterAvailableSlots (generateTimeSlots (formatClock 540) (formatClock 720) 15)
          [sampleBooking 1 7 "10:00" "11:00" "confirmed"]
      ↔ ((⟨"11:00", "12:00", true, 15⟩ : TimeSlot)
          ∈ generateTimeSlots (formatClock 540) (formatClock 720) 15
        ∧ (⟨"11:00", "12:00", true, 15⟩ : TimeSlot) ≠ ⟨"10:00", "11:00", true, 15⟩)) :=
  ⟨filterAvailableSlots_single 540 720 (by decide) (by decide) 15 ⟨"10:00", "11:00", true, 15⟩
      (sampleBooking 1 7 "10:00" "11:00" "confirmed") (by decide) (by decide) (by decide) _,
   filterAvailableSlots_single 540 720 (by decide) (by decide) 15 ⟨"10:00", "11:00", true, 15⟩
      (sampleBooking 1 7 "10:00" "11:00" "confirmed") (by decide) (by decide) (by decide) _,
   filterAvailableSlots_single 540 720 (by decide) (by decide) 15 ⟨"10:00", "11:00", true, 15⟩
      (sampleBooking 1 7 "10:00" "11:00" "confirmed") (by decide) (by decide) (by decide) _⟩

theorem insertPayment_some (payments created : List Payment) (payment : Payment)
    (h : insertPayment payments payment = some created) :
    created = payments ++ [payment]
      ∧ ∀ q ∈ payments, q.ID ≠ payment.ID ∧ q.PreferenceID ≠ payment.PreferenceID := by
  unfold insertPayment at h
  split_ifs at h with hany
  refine ⟨(Option.some.inj h).symm, ?_⟩
  intro q hq
  simp only [List.any_eq_true, not_exists, not_and, Bool.or_eq_true, beq_iff_eq, not_or] at hany
  exact hany q hq

theorem insertPayment_fresh (payments : List Payment) (payment : Payment)
    (h : ∀ q ∈ payments, q.ID ≠ payment.ID ∧ q.PreferenceID ≠ payment.PreferenceID) :
    insertPayment payments payment = some (payments ++ [payment]) := by
  unfold insertPayment
  rw [if_neg]
  simp only [List.any_eq_true, not_exists, not_and, Bool.or_eq_true, beq_iff_eq, not_or]
  exact h

theorem savePayment_fresh (payments : List Payment) (old new : Payment)
    (hfresh : ∀ q ∈ payments, q.ID ≠ old.ID) (hid : new.ID = old.ID)
    (hlive : old.Deleted = false) :
    savePayment (payments ++ [old]) new = payments ++ [new] := by
  simp only [savePayment, List.map_append, List.map_cons, List.map_nil, hid, beq_self_eq_true,
    hlive, Bool.not_false, Bool.and_self, if_true]
  congr 1
  rw [List.map_congr_left (g := id)]
  · simp
  · intro q hq
    simp [hfresh q hq]

theorem deletePayment_fresh (payments : List Payment) (old : Payment)
    (hfresh : ∀ q ∈ payments, q.ID ≠ old.ID) (hlive : old.Deleted = false) :
    deletePayment (payments ++ [old]) old = payments ++ [{ old with Deleted := true }] := by
  simp only [deletePayment, List.map_append, List.map_cons, List.map_nil, beq_self_eq_true,
    hlive, Bool.not_false, Bool.and_self, if_true]
  congr 1
  rw [List.map_congr_left (g := id)]
  · simp
  · intro q hq
    simp [hfresh q hq]

theorem CreatePreference_cases (s : Store) (userID : Nat) (req : CreatePreferenceRequest)
    (paymentID : String) (preference : Option PreferenceResponse) (booking : Booking)
    (hbook : s.bookings.find? (fun b => b.ID == req.BookingID && b.UserID == userID)
      = some booking) :
    ((∃ p, findByBooking s req.BookingID = some p)
        ∧ CreatePreference s userID req paymentID preference
          = (.error "payment already exists for this booking", s))
      ∨ (findByBooking s req.BookingID = none
        ∧ insertPayment s.payments (newPayment userID req paymentID booking) = none
        ∧ CreatePreference s userID req paymentID preference
          = (.error "failed to create payment", s))
      ∨ (findByBooking s req.BookingID = none
        ∧ (∀ q ∈ s.payments, q.ID ≠ paymentID ∧ q.PreferenceID ≠ "")
        ∧ ((preference = none
            ∧ CreatePreference s userID req paymentID preference
              = (.error "failed to create MercadoPago preference",
                  { s with
                    payments := s.payments
                      ++ [{ newPayment userID req paymentID booking with Deleted := true }] }))
          ∨ (∃ pref, preference = some pref
            ∧ (∃ q ∈ s.payments, q.PreferenceID = pref.ID)
            ∧ CreatePreference s userID req paymentID preference
              = (.error "failed to update payment with preference ID",
                  { s with
                    payments := s.payments ++ [newPayment userID req paymentID booking] }))
          ∨ (∃ pref, preference = some pref
            ∧ (∀ q ∈ s.payments, q.PreferenceID ≠ pref.ID)
            ∧ CreatePreference s userID req paymentID preference
              = (.ok pref,
                  { s with
                    payments := s.payments
                      ++ [{ newPayment userID req paymentID booking with
                            PreferenceID := pref.ID }] })))) := by
  cases hexist : findByBooking s req.BookingID with
  | some p =>
    exact Or.inl ⟨⟨p, rfl⟩, by simp only [CreatePreference, hbook, hexist]⟩
  | none =>
    refine Or.inr ?_
    cases hins : insertPayment s.payments (newPayment userID req paymentID booking) with
    | none =>
      exact Or.inl ⟨rfl, rfl, by simp only [CreatePreference, hbook, hexist, hins]⟩
    | some created =>
      obtain ⟨hcreated, hfresh⟩ := insertPayment_some _ _ _ hins
      have hfreshID : ∀ q ∈ s.payments, q.ID ≠ (newPayment userID req paymentID booking).ID :=
        fun q hq => (hfresh q hq).1
      refine Or.inr ⟨rfl, hfresh, ?_⟩
      subst hcreated
      cases hpref : preference with
      | none =>
        refine Or.inl ⟨rfl, ?_⟩
        simp only [CreatePreference, hbook, hexist, hins]
        rw [deletePayment_fresh _ _ hfreshID rfl]
      | some pref =>
        refine Or.inr ?_
        have hsave := savePayment_fresh s.payments (newPayment userID req paymentID booking)
          { newPayment userID req paymentID booking with PreferenceID := pref.ID }
          hfreshID rfl rfl
        by_cases htaken : ∃ q ∈ s.payments, q.PreferenceID = pref.ID
        · refine Or.inl ⟨pref, rfl, htaken, ?_⟩
          obtain ⟨q, hq, hqp⟩ := htaken
          have hany : (s.payments ++ [newPayment userID req paymentID booking]).any (fun p =>
              p.ID != (newPayment userID req paymentID booking).ID
                && p.PreferenceID == pref.ID) = true := by
            rw [List.any_eq_true]
            refine ⟨q, List.mem_append_left _ hq, ?_⟩
            have := hfreshID q hq
            simp only [Bool.and_eq_true, bne_iff_ne, ne_eq, beq_iff_eq]
            exact ⟨this, hqp⟩
          simp only [CreatePreference, hbook, hexist, hins, hany, if_true]
        · refine Or.inr ⟨pref, rfl, ?_, ?_⟩
          · intro q hq hqp
            exact htaken ⟨q, hq, hqp⟩
          · have hany : (s.payments ++ [newPayment userID req paymentID booking]).any (fun p =>
                p.ID != (newPayment userID req paymentID booking).ID
                  && p.PreferenceID == pref.ID) = false := by
              rw [List.any_eq_false]
              intro q hq
              rcases List.mem_append.mp hq with hq1 | hq2
              · have : ¬ q.PreferenceID = pref.ID := fun h => htaken ⟨q, hq1, h⟩
                simp [this]
              · rw [List.mem_singleton.mp hq2]
                simp
            simp only [CreatePreference, hbook, hexist, hins, hany, Bool.false_eq_true, if_false]
            exact congrArg (fun ps =>
              ((Except.ok pref : Except String PreferenceResponse),
                ({ s with payments := ps } : Store))) hsave

theorem onePaymentPerBooking_append (s : Store) (p : Payment) (hinv : s.onePaymentPerBooking)
    (hnone : findByBooking s p.BookingID = none) :
    ({ s with payments := s.payments ++ [p] } : Store).onePaymentPerBooking := by
  unfold Store.onePaymentPerBooking
  refine List.pairwise_append.mpr ⟨hinv, List.pairwise_singleton _ _, ?_⟩
  intro q hq x hx hbooking hlive _ _ _
  rw [List.mem_singleton] at hx
  rw [hx] at hbooking
  unfold findByBooking at hnone
  rw [List.find?_eq_none] at hnone
  exact hnone q hq (by simp [hbooking, hlive])

theorem findByBooking_none_iff (s : Store) (bookingID : Nat) :
    findByBooking s bookingID = none
      ↔ ¬ ∃ p ∈ s.payments, p.BookingID = bookingID ∧ p.Deleted = false := by
  unfold findByBooking
  rw [List.find?_eq_none]
  constructor
  · rintro h ⟨p, hp, hb, hd⟩
    exact h p hp (by simp [hb, hd])
  · intro h p hp hcond
    simp only [Bool.and_eq_true, beq_iff_eq, Bool.not_eq_true'] at hcond
    exact h ⟨p, hp, hcond.1, hcond.2⟩

/-- Counterexample to C22: bookings 1 and 2 are pending and no payment is
stored.  The provider fails on the preference for booking 1, so
`CreatePreference` returns an error and soft-deletes the row it had inserted:
no live payment is left.  Booking 2 has no payment row at all, yet
`CreatePreference` for it, with a provider that answers, returns "failed to
create payment" and creates nothing. -/
theorem CreatePreference_creates_nothing :
    (CreatePreference twoBookingsStore 7 preferenceRequest "pay-1" none).1
        = .error "failed to create MercadoPago preference"
      ∧ (∀ p ∈ (CreatePreference twoBookingsStore 7 preferenceRequest "pay-1" none).2.payments,
          p.Deleted = true ∧ p.BookingID ≠ 2)
      ∧ (CreatePreference twoBookingsStore 7 preferenceRequest "pay-1"
          none).2.onePaymentPerBooking
      ∧ (CreatePreference twoBookingsStore 7 preferenceRequest "pay-1" none).2.bookings.find?
          (fun b => b.ID == 2 && b.UserID == 8)
          = some (sampleBooking 2 8 "11:00" "12:00" "pending")
      ∧ CreatePreference (CreatePreference twoBookingsStore 7 preferenceRequest "pay-1" none).2 8
          { BookingID := 2, PayerEmail := "eva@example.org" } "pay-2" (some samplePreference)
        = (.error "failed to create payment",
            (CreatePreference twoBookingsStore 7 preferenceRequest "pay-1" none).2) := by
  decide

/-- C22, amended: for a booking of the caller, `CreatePreference` keeps the
invariant that each booking has at most one payment that is neither
soft-deleted nor cancelled.  If a payment of the booking that is not
soft-deleted is stored, it returns "payment already exists for this booking"
and leaves the store as it is.  Otherwise, provided no stored payment row,
soft-deleted rows included, holds the new id or an empty `preference_id`, it
appends exactly one payment row, of that booking, with status "pending" and
the booking's total price as amount; when the provider answers with a
preference id no stored row holds, the call returns that answer and the new
row is live, and when the provider fails the call returns "failed to create
MercadoPago preference" and the new row is left soft-deleted. -/
theorem CreatePreference_one_payment (s : Store) (userID : Nat)
    (req : CreatePreferenceRequest) (paymentID : String)
    (preference : Option PreferenceResponse) (booking : Booking)
    (hbook : s.bookings.find? (fun b => b.ID == req.BookingID && b.UserID == userID)
      = some booking)
    (hinv : s.onePaymentPerBooking) :
    (CreatePreference s userID req paymentID preference).2.onePaymentPerBooking
      ∧ ((∃ p ∈ s.payments, p.BookingID = req.BookingID ∧ p.Deleted = false) →
          CreatePreference s userID req paymentID preference
            = (.error "payment already exists for this booking", s))
      ∧ ((¬ ∃ p ∈ s.payments, p.BookingID = req.BookingID ∧ p.Deleted = false) →
          (∀ p ∈ s.payments, p.ID ≠ paymentID ∧ p.PreferenceID ≠ "") →
          ∃ created : Payment,
            (CreatePreference s userID req paymentID preference).2.payments
                = s.payments ++ [created]
              ∧ created.BookingID = req.BookingID ∧ created.Status = "pending"
              ∧ created.Amount = booking.TotalPrice
              ∧ (∀ pref, preference = some pref →
                  (∀ p ∈ s.payments, p.PreferenceID ≠ pref.ID) →
                  (CreatePreference s userID req paymentID preference).1 = .ok pref
                    ∧ created.Deleted = false)
              ∧ (preference = none →
                  (CreatePreference s userID req paymentID preference).1
                      = .error "failed to create MercadoPago preference"
                    ∧ created.Deleted = true)) := by
  have hcases := CreatePreference_cases s userID req paymentID preference booking hbook
  refine ⟨?_, ?_, ?_⟩
  · rcases hcases with ⟨_, h⟩ | ⟨_, _, h⟩ | ⟨hnone, _, h⟩
    · rw [h]; exact hinv
    · rw [h]; exact hinv
    · rcases h with ⟨_, h⟩ | ⟨_, _, _, h⟩ | ⟨_, _, _, h⟩ <;> rw [h] <;>
        exact onePaymentPerBooking_append s _ hinv hnone
  · intro hex
    rcases hcases with ⟨_, h⟩ | ⟨hnone, _⟩ | ⟨hnone, _⟩
    · exact h
    · exact absurd hex ((findByBooking_none_iff s req.BookingID).mp hnone)
    · exact absurd hex ((findByBooking_none_iff s req.BookingID).mp hnone)
  · intro hno hfresh
    rcases hcases with ⟨⟨p, hp⟩, _⟩ | ⟨_, hins, _⟩ | ⟨_, _, h⟩
    · rw [(findByBooking_none_iff s req.BookingID).mpr hno] at hp
      cases hp
    · rw [insertPayment_fresh s.payments (newPayment userID req paymentID booking) hfresh]
        at hins
      cases hins
    · rcases h with ⟨hpref, h⟩ | ⟨pref, hpref, htaken, h⟩ | ⟨pref, hpref, _, h⟩
      · refine ⟨_, by rw [h], rfl, rfl, rfl, ?_, ?_⟩
        · intro pref hp
          rw [hpref] at hp
          cases hp
        · intro _
          exact ⟨by rw [h], rfl⟩
      · refine ⟨_, by rw [h], rfl, rfl, rfl, ?_, ?_⟩
        · intro pref2 hp hfree
          rw [hpref] at hp
          cases hp
          obtain ⟨q, hq, hqp⟩ := htaken
          exact absurd hqp (hfree q hq)
        · intro hnone
          rw [hpref] at hnone
          cases hnone
      · refine ⟨_, by rw [h], rfl, rfl, rfl, ?_, ?_⟩
        · intro pref2 hp _
          rw [hpref] at hp
          cases hp
          exact ⟨by rw [h], rfl⟩
        · intro hnone
          rw [hpref] at hnone
          cases hnone

/-- Witness of C22: a first preference for the pending booking 1. -/
theorem CreatePreference_one_payment_witness :
    (CreatePreference unpaidStore 7 preferenceRequest "pay-2"
        (some samplePreference)).2.onePaymentPerBooking
      ∧ ((∃ p ∈ unpaidStore.payments, p.BookingID = preferenceRequest.BookingID
            ∧ p.Deleted = false) →
          CreatePreference unpaidStore 7 preferenceRequest "pay-2" (some samplePreference)
            = (.error "payment already exists for this booking", unpaidStore))
      ∧ ((¬ ∃ p ∈ unpaidStore.payments, p.BookingID = preferenceRequest.BookingID
            ∧ p.Deleted = false) →
          (∀ p ∈ unpaidStore.payments, p.ID ≠ "pay-2" ∧ p.PreferenceID ≠ "") →
          ∃ created : Payment,
            (CreatePreference unpaidStore 7 preferenceRequest "pay-2"
                (some samplePreference)).2.payments = unpaidStore.payments ++ [created]
              ∧ created.BookingID = preferenceRequest.BookingID ∧ created.Status = "pending"
              ∧ created.Amount = (sampleBooking 1 7 "10:00" "11:00" "pending").TotalPrice
              ∧ (∀ pref, some samplePreference = some pref →
                  (∀ p ∈ unpaidStore.payments, p.PreferenceID ≠ pref.ID) →
                  (CreatePreference unpaidStore 7 preferenceRequest "pay-2"
                      (some samplePreference)).1 = .ok pref
                    ∧ created.Deleted = false)
              ∧ (some samplePreference = none →
                  (CreatePreference unpaidStore 7 preferenceRequest "pay-2"
                      (some samplePreference)).1
                      = .error "failed to create MercadoPago preference"
                    ∧ created.Deleted = true)) :=
  CreatePreference_one_payment unpaidStore 7 preferenceRequest "pay-2" (some samplePreference)
    (sampleBooking 1 7 "10:00" "11:00" "pending") (by decide) (by decide)

/-- C29 fails on the code: for the pending booking 1 without payment the
provider fails to create the preference; `CreatePreference` returns an error
and soft-deletes the payment row, which keeps the empty `preference_id`.  No
live payment is left, but a second `CreatePreference` for the same booking,
with a provider that answers, is refused at the insert by the unique index
on `preference_id` and returns "failed to create payment". -/
theorem CreatePreference_retry_refused :
    (CreatePreference unpaidStore 7 preferenceRequest "pay-1" none).1
        = .error "failed to create MercadoPago preference"
      ∧ (CreatePreference unpaidStore 7 preferenceRequest "pay-1" none).2.payments
        = [{ newPayment 7 preferenceRequest "pay-1" (sampleBooking 1 7 "10:00" "11:00" "pending")
              with Deleted := true }]
      ∧ findByBooking (CreatePreference unpaidStore 7 preferenceRequest "pay-1" none).2 1 = none
      ∧ CreatePreference (CreatePreference unpaidStore 7 preferenceRequest "pay-1" none).2 7
          preferenceRequest "pay-2" (some samplePreference)
        = (.error "failed to create payment",
            (CreatePreference unpaidStore 7 preferenceRequest "pay-1" none).2) := by
  decide

theorem floatDiv_zero (x : Rat) : floatDiv x 0 = none := by
  simp [floatDiv]

theorem GetPaymentStatistics_average (s : Store) :
    (0 < (GetPaymentStatistics s).TotalPayments →
        (GetPaymentStatistics s).ApprovedPayments = 0 →
        (GetPaymentStatistics s).AverageAmount = none)
      ∧ (0 < (GetPaymentStatistics s).ApprovedPayments →
          0 < (GetPaymentStatistics s).TotalPayments →
          (GetPaymentStatistics s).AverageAmount
            = some (float64 ((GetPaymentStatistics s).TotalRevenue
                / (GetPaymentStatistics s).ApprovedPayments)))
      ∧ ((GetPaymentStatistics s).TotalPayments = 0 →
          (GetPaymentStatistics s).AverageAmount = some 0) := by
  refine ⟨?_, ?_, ?_⟩
  · intro htotal happ
    simp only [GetPaymentStatistics] at htotal happ ⊢
    simp [htotal, happ, floatDiv_zero]
  · intro happ htotal
    simp only [GetPaymentStatistics] at htotal happ ⊢
    have hne : ((paymentsWithStatus s "approved").length : Rat) ≠ 0 := by
      exact_mod_cast Nat.pos_iff_ne_zero.mp happ
    simp [htotal, floatDiv, hne]
  · intro htotal
    simp only [GetPaymentStatistics] at htotal ⊢
    simp [htotal]

/-- C30 fails on the code: with one pending payment and no approved one, the
guard `totalPayments > 0` holds and `GetPaymentStatistics` divides the total
revenue 0 by the 0 approved payments; the average is no number (NaN in Go),
not 0.  The division by zero happens whenever a live payment exists and none
is approved. -/
theorem GetPaymentStatistics_divides_by_zero :
    (GetPaymentStatistics (paidStore "pending")).TotalPayments = 1
      ∧ (GetPaymentStatistics (paidStore "pending")).ApprovedPayments = 0
      ∧ (GetPaymentStatistics (paidStore "pending")).TotalRevenue = 0
      ∧ (GetPaymentStatistics (paidStore "pending")).AverageAmount = none
      ∧ (GetPaymentStatistics (paidStore "pending")).AverageAmount ≠ some 0
      ∧ (∀ s : Store, 0 < (GetPaymentStatistics s).TotalPayments →
          (GetPaymentStatistics s).ApprovedPayments = 0 →
          (GetPaymentStatistics s).AverageAmount = none) := by
  have hnone : (GetPaymentStatistics (paidStore "pending")).AverageAmount = none :=
    (GetPaymentStatistics_average (paidStore "pending")).1 (by decide) (by decide)
  refine ⟨by decide, by decide, by decide, hnone, ?_, ?_⟩
  · rw [hnone]
    exact fun h => Option.noConfusion h
  · intro s
    exact (GetPaymentStatistics_average s).1

end PadelGo
